import Mathlib

/-!
Hairpin filter and option parsing of arriba (filter_hairpin.cpp, options.cpp)

A shallow embedding of `is_breakpoint_within_aligned_segment` and
`filter_hairpin`, of case 'f' of `parse_arguments` and of `validate_int`,
followed by the properties proved about them.

Conventions of the embedding:

* `is_breakpoint_within_aligned_segment` is embedded twice.  The first
  embedding computes positions in `Int`: it is the function on runs without
  integer overflow, and `filter_hairpin` is stated over it.  The second,
  `is_breakpoint_within_aligned_segment_int32`, computes with the machine
  arithmetic of the source, where `reference_position += op_length` wraps
  modulo 2^32.  The two agree on every alignment without integer overflow
  (`int32_eq_of_no_overflow`).
* the counter `remaining` is an `unsigned int`; its increment wraps and is
  embedded as `(remaining + 1) % (UINT_MAX + 1)`.
* `chimeric_alignments_t` is a map from read names to `mates_t`; it is embedded
  as the list of its entries in iteration order.
* indexing a `mates_t` beyond its size has no defined behaviour; the embedding
  returns `none` for the whole run in that case.
* a string is the list of its characters; a map from names to flags is a
  function into `Option Bool`; an error message followed by `exit(1)` is
  `Except.error`.
* the string stream of case 'f' and the function `atoi` belong to the standard
  library; they are embedded by what the library defines them to deliver.
-/

set_option linter.unusedVariables false

namespace Arriba

/-! ## Data model -/

/-- CIGAR operation codes (the `BAM_C*` constants of sam.h). -/
inductive cigar_op where
  | BAM_CMATCH
  | BAM_CINS
  | BAM_CDEL
  | BAM_CREF_SKIP
  | BAM_CSOFT_CLIP
  | BAM_CHARD_CLIP
  | BAM_CPAD
  | BAM_CEQUAL
  | BAM_CDIFF
  | BAM_CBACK
  deriving DecidableEq, Repr

/-- One element of a CIGAR string: `cigar.operation(i)` and `cigar.op_length(i)`. -/
structure cigar_element where
  operation : cigar_op
  op_length : Nat
  deriving DecidableEq, Repr

abbrev cigar_t := List cigar_element

abbrev position_t := Int

abbrev contig_t := Nat

abbrev gene_t := Nat

abbrev gene_set_t := List gene_t

inductive strand_t where
  | FORWARD
  | REVERSE
  deriving DecidableEq, Repr

/-- The fields of `alignment_t` read by the hairpin filter.  The field `end` of
the source is called `end_` here (`end` is a keyword). -/
structure alignment_t where
  contig : contig_t
  strand : strand_t
  start : position_t
  end_ : position_t
  cigar : cigar_t
  genes : gene_set_t
  deriving DecidableEq, Repr

/-- Filter tags.  The declaration of `filter_t` is in common.hpp; the two tags
that filter_hairpin.cpp names are constructors of their own, every other tag is
`FILTER_other n`. -/
inductive filter_t where
  | FILTER_none
  | FILTER_hairpin
  | FILTER_other (n : Nat)
  deriving DecidableEq, Repr

/-- A group of alignments supporting one candidate: a vector of alignments
carrying the verdict field `filter`. -/
structure mates_t where
  alignments : List alignment_t
  filter : filter_t
  deriving DecidableEq, Repr

abbrev chimeric_alignments_t := List (String × mates_t)

/-- Modelled from the spec: the role indices `MATE1`, `MATE2`, `SPLIT_READ` and
`SUPPLEMENTARY` are declared in common.hpp, which is not part of the sources.
A discordant-mate candidate holds (mate1, mate2), a split-read candidate holds
(mate1, split_read, supplementary). -/
def MATE1 : Nat := 0

/-- Modelled from the spec: see `MATE1`. -/
def MATE2 : Nat := 1

/-- Modelled from the spec: see `MATE1`. -/
def SPLIT_READ : Nat := 1

/-- Modelled from the spec: see `MATE1`. -/
def SUPPLEMENTARY : Nat := 2

/-- Largest value of an `unsigned int` (32 bits). -/
def UINT_MAX : Nat := 4294967295

/-- Modelled from the spec: `combine_annotations` is defined in annotation.cpp,
which is not part of the sources.  The spec describes it as a combination of
two gene sets that "is set union or set intersection depending on filter
semantics", the hairpin computation using the intersection ("common genes"). -/
def combine_annotations (genes1 genes2 : gene_set_t) (make_union : Bool) : gene_set_t :=
  if make_union then genes1 ++ genes2.filter (fun g => decide (g ∉ genes1))
  else genes1.filter (fun g => decide (g ∈ genes2))

/-! ## is_breakpoint_within_aligned_segment -/

/-- The loop of `is_breakpoint_within_aligned_segment`: the CIGAR elements not
yet visited and the value of `reference_position` on entry.  Positions are
integers here, so this is the loop on runs without integer overflow; the loop on
32-bit integers is `is_breakpoint_within_aligned_segment_int32_loop`. -/
def is_breakpoint_within_aligned_segment_loop (breakpoint : position_t) :
    position_t → cigar_t → Bool
  | _, [] => false
  | reference_position, e :: rest =>
    match e.operation with
    | .BAM_CREF_SKIP | .BAM_CDEL =>
      is_breakpoint_within_aligned_segment_loop breakpoint
        (reference_position + (e.op_length : Int)) rest
    | .BAM_CMATCH | .BAM_CDIFF | .BAM_CEQUAL =>
      if breakpoint ≥ reference_position ∧
          breakpoint ≤ reference_position + (e.op_length : Int) then
        true
      else
        is_breakpoint_within_aligned_segment_loop breakpoint
          (reference_position + (e.op_length : Int)) rest
    | _ => is_breakpoint_within_aligned_segment_loop breakpoint reference_position rest

def is_breakpoint_within_aligned_segment (breakpoint : position_t) (alignment : alignment_t) :
    Bool :=
  is_breakpoint_within_aligned_segment_loop breakpoint alignment.start alignment.cigar

/-! ## filter_hairpin -/

/-- The statement `remaining++` on an `unsigned int`. -/
def increment (remaining : Nat) : Nat := (remaining + 1) % (UINT_MAX + 1)

/-- One iteration of the loop of `filter_hairpin`: the candidate and the counter
after the iteration, `none` when a record is read beyond the size of the
candidate.  The source tests `size() == 2` twice, once before the gene check and
once before the breakpoint check; both tests are the one `if` on the length
here, and each `continue` is a returned pair.  The record `MATE1` of a split
read is read only when the first two checks have failed, as `||` does. -/
def filter_hairpin_iteration (chimeric_alignment : mates_t) (remaining : Nat) :
    Option (mates_t × Nat) :=
  if chimeric_alignment.filter ≠ filter_t.FILTER_none then
    some (chimeric_alignment, remaining) -- the read has already been filtered
  else if chimeric_alignment.alignments.length = 2 then -- discordant mates
    match chimeric_alignment.alignments[MATE1]?, chimeric_alignment.alignments[MATE2]? with
    | some mate1, some mate2 =>
      let common_genes := combine_annotations mate1.genes mate2.genes false
      if common_genes.isEmpty ∧ mate1.contig ≠ mate2.contig then
        some (chimeric_alignment, increment remaining)
      else
        let breakpoint1 := if mate1.strand = strand_t.FORWARD then mate1.end_ else mate1.start
        let breakpoint2 := if mate2.strand = strand_t.FORWARD then mate2.end_ else mate2.start
        if is_breakpoint_within_aligned_segment breakpoint1 mate2 ||
            is_breakpoint_within_aligned_segment breakpoint2 mate1 then
          some ({ chimeric_alignment with filter := filter_t.FILTER_hairpin }, remaining)
        else
          some (chimeric_alignment, increment remaining)
    | _, _ => none
  else -- split read
    match chimeric_alignment.alignments[SPLIT_READ]?,
        chimeric_alignment.alignments[SUPPLEMENTARY]? with
    | some split_read, some supplementary =>
      let common_genes := combine_annotations split_read.genes supplementary.genes false
      if common_genes.isEmpty ∧ split_read.contig ≠ supplementary.contig then
        some (chimeric_alignment, increment remaining)
      else
        let breakpoint_split_read :=
          if split_read.strand = strand_t.FORWARD then split_read.start else split_read.end_
        let breakpoint_supplementary :=
          if supplementary.strand = strand_t.FORWARD then supplementary.end_
          else supplementary.start
        if is_breakpoint_within_aligned_segment breakpoint_split_read supplementary ||
            is_breakpoint_within_aligned_segment breakpoint_supplementary split_read then
          some ({ chimeric_alignment with filter := filter_t.FILTER_hairpin }, remaining)
        else
          match chimeric_alignment.alignments[MATE1]? with
          | some mate1 =>
            if is_breakpoint_within_aligned_segment breakpoint_supplementary mate1 then
              some ({ chimeric_alignment with filter := filter_t.FILTER_hairpin }, remaining)
            else
              some (chimeric_alignment, increment remaining)
          | none => none
    | _, _ => none

/-- The loop of `filter_hairpin` over the entries of the map, in iteration
order, threading the counter `remaining`. -/
def filter_hairpin_loop : chimeric_alignments_t → Nat → Option (chimeric_alignments_t × Nat)
  | [], remaining => some ([], remaining)
  | (name, chimeric_alignment) :: rest, remaining =>
    match filter_hairpin_iteration chimeric_alignment remaining with
    | none => none
    | some (chimeric_alignment', remaining') =>
      match filter_hairpin_loop rest remaining' with
      | none => none
      | some (rest', result) => some ((name, chimeric_alignment') :: rest', result)

/-- The function `filter_hairpin`: the candidates after the run and the returned
count.  The type of the annotation index is declared in annotation.hpp; the
function never reads the index, so its type is left open. -/
def filter_hairpin {exon_annotation_index_t : Type} (chimeric_alignments : chimeric_alignments_t)
    (exon_annotation_index : exon_annotation_index_t) (max_mate_gap : Int) :
    Option (chimeric_alignments_t × Nat) :=
  filter_hairpin_loop chimeric_alignments 0

/-! ## Vocabulary of the statements -/

/-- Match-type operations: M, X and =. -/
def is_match_type (op : cigar_op) : Bool :=
  op = cigar_op.BAM_CMATCH || op = cigar_op.BAM_CDIFF || op = cigar_op.BAM_CEQUAL

/-- Reference-consuming operations: M, X, =, N and D. -/
def consumes_reference (op : cigar_op) : Bool :=
  is_match_type op || op = cigar_op.BAM_CREF_SKIP || op = cigar_op.BAM_CDEL

/-- Sum of the lengths of the reference-consuming elements of a CIGAR. -/
def reference_length (cigar : cigar_t) : Int :=
  ((cigar.filter (fun e => consumes_reference e.operation)).map
    (fun e => (e.op_length : Int))).sum

/-- Reference start of the CIGAR element with index `i`: the start of the
alignment plus the lengths of all earlier reference-consuming elements. -/
def reference_start (alignment : alignment_t) (i : Nat) : Int :=
  alignment.start + reference_length (alignment.cigar.take i)

/-- The breakpoint of a record in the words of the spec: its end when the record
is on the forward strand, its start when it is on the reverse strand. -/
def breakpoint_position (record : alignment_t) : position_t :=
  if record.strand = strand_t.FORWARD then record.end_ else record.start

/-- The candidate that one iteration of the loop leaves behind, whatever the
value of the counter. -/
def filter_hairpin_outcome (chimeric_alignment : mates_t) : Option mates_t :=
  (filter_hairpin_iteration chimeric_alignment 0).map Prod.fst

/-- The entry of the map that one iteration of the loop leaves behind. -/
def filter_hairpin_entry (e : String × mates_t) : Option (String × mates_t) :=
  (filter_hairpin_outcome e.2).map (fun m' => (e.1, m'))

/-- The counter after the iteration that left `chimeric_alignment` behind. -/
def count_remaining (chimeric_alignment : mates_t) (remaining : Nat) : Nat :=
  if chimeric_alignment.filter = filter_t.FILTER_none then increment remaining else remaining

/-- Number of candidates whose verdict is unfiltered. -/
def unfiltered_count (chimeric_alignments : chimeric_alignments_t) : Nat :=
  chimeric_alignments.countP (fun e => decide (e.2.filter = filter_t.FILTER_none))

/-! ## Concrete records and candidates -/

/-- Forward-strand alignment covering [100,150) with breakpoint 150. -/
def forward_mate1 : alignment_t :=
  { contig := 1, strand := strand_t.FORWARD, start := 100, end_ := 150,
    cigar := [⟨cigar_op.BAM_CMATCH, 50⟩], genes := [7] }

/-- Alignment covering [140,200) on the contig of `forward_mate1`. -/
def overlapping_mate2 : alignment_t :=
  { contig := 1, strand := strand_t.REVERSE, start := 140, end_ := 200,
    cigar := [⟨cigar_op.BAM_CMATCH, 60⟩], genes := [7] }

/-- Alignment covering [200,250) on the contig of `forward_mate1`. -/
def distant_mate2 : alignment_t :=
  { contig := 1, strand := strand_t.REVERSE, start := 200, end_ := 250,
    cigar := [⟨cigar_op.BAM_CMATCH, 50⟩], genes := [7] }

/-- Alignment covering [140,200) on another contig and in another gene than
`forward_mate1`. -/
def other_contig_mate2 : alignment_t :=
  { contig := 2, strand := strand_t.REVERSE, start := 140, end_ := 200,
    cigar := [⟨cigar_op.BAM_CMATCH, 60⟩], genes := [8] }

/-- Unsplit mate far away from the split read. -/
def far_mate1 : alignment_t :=
  { contig := 1, strand := strand_t.REVERSE, start := 1000, end_ := 1050,
    cigar := [⟨cigar_op.BAM_CMATCH, 50⟩], genes := [] }

/-- Forward-strand split read covering [100,150). -/
def forward_split_read : alignment_t :=
  { contig := 1, strand := strand_t.FORWARD, start := 100, end_ := 150,
    cigar := [⟨cigar_op.BAM_CMATCH, 50⟩], genes := [] }

/-- Forward-strand supplementary alignment covering [140,170). -/
def forward_supplementary : alignment_t :=
  { contig := 1, strand := strand_t.FORWARD, start := 140, end_ := 170,
    cigar := [⟨cigar_op.BAM_CMATCH, 30⟩], genes := [] }

/-- Forward-strand supplementary alignment covering [60,100). -/
def upstream_supplementary : alignment_t :=
  { contig := 1, strand := strand_t.FORWARD, start := 60, end_ := 100,
    cigar := [⟨cigar_op.BAM_CMATCH, 40⟩], genes := [] }

/-- Discordant mates that form a hairpin. -/
def hairpin_mates : mates_t :=
  { alignments := [forward_mate1, overlapping_mate2], filter := filter_t.FILTER_none }

/-- Discordant mates on one contig that do not overlap. -/
def distant_mates : mates_t :=
  { alignments := [forward_mate1, distant_mate2], filter := filter_t.FILTER_none }

/-- Discordant mates on different contigs without a common gene. -/
def intergenic_mates : mates_t :=
  { alignments := [forward_mate1, other_contig_mate2], filter := filter_t.FILTER_none }

/-- Split read whose end, but not its start, lies within the supplementary
alignment. -/
def split_read_candidate : mates_t :=
  { alignments := [far_mate1, forward_split_read, forward_supplementary],
    filter := filter_t.FILTER_none }

/-- Split read whose start lies within the supplementary alignment. -/
def split_read_hairpin : mates_t :=
  { alignments := [far_mate1, forward_split_read, upstream_supplementary],
    filter := filter_t.FILTER_none }

/-- A candidate rejected by an earlier filter; it holds no record at all. -/
def filtered_candidate : mates_t :=
  { alignments := [], filter := filter_t.FILTER_other 3 }

/-- A candidate set of three reads. -/
def three_reads : chimeric_alignments_t :=
  [("read1", hairpin_mates), ("read2", distant_mates), ("read3", split_read_candidate)]

/-- As many intergenic candidates as an `unsigned int` has values, under
distinct names. -/
def many_candidates : chimeric_alignments_t :=
  (List.range (UINT_MAX + 1)).map (fun i => (toString i, intergenic_mates))

/-- Unsplit mate covering [160,200). -/
def covering_mate1 : alignment_t :=
  { contig := 1, strand := strand_t.REVERSE, start := 160, end_ := 200,
    cigar := [⟨cigar_op.BAM_CMATCH, 40⟩], genes := [] }

/-- Split read whose supplementary alignment ends within the unsplit mate, and
for which the first two checks fail. -/
def mate_hairpin_candidate : mates_t :=
  { alignments := [covering_mate1, forward_split_read, forward_supplementary],
    filter := filter_t.FILTER_none }

/-- Spliced alignment 10M20N10M starting at 100, with one base inserted and two
bases clipped. -/
def spliced_alignment : alignment_t :=
  { contig := 1, strand := strand_t.FORWARD, start := 100, end_ := 140,
    cigar := [⟨cigar_op.BAM_CSOFT_CLIP, 2⟩, ⟨cigar_op.BAM_CMATCH, 10⟩,
      ⟨cigar_op.BAM_CREF_SKIP, 20⟩, ⟨cigar_op.BAM_CINS, 1⟩, ⟨cigar_op.BAM_CMATCH, 10⟩],
    genes := [] }

/-- Alignment whose CIGAR holds a deletion and a clip only. -/
def unmatched_alignment : alignment_t :=
  { contig := 1, strand := strand_t.FORWARD, start := 100, end_ := 120,
    cigar := [⟨cigar_op.BAM_CDEL, 20⟩, ⟨cigar_op.BAM_CSOFT_CLIP, 5⟩], genes := [] }

/-! ## Option parsing (options.cpp) -/

/-- A `std::string` or C string, one `Char` per character. -/
abbrev std_string := List Char

/-- The member `filters` of `options_t`, a map from filter names to flags; a
name that is not a key of the map has the value `none`. -/
abbrev filters_map := std_string → Option Bool

/-- The assignment `filters[name] = value`, which inserts the key when it is
missing. -/
def filters_assign (filters : filters_map) (name : std_string) (value : Bool) : filters_map :=
  fun key => if key = name then some value else filters key

/-- The loop of `get_default_options` over the table `FILTERS`, `i` being the
index of the first name of the list. -/
def get_default_options_loop (FILTER_none : Nat) :
    List std_string → Nat → filters_map → filters_map
  | [], _, filters => filters
  | name :: rest, i, filters =>
    get_default_options_loop FILTER_none rest (i + 1)
      (if i ≠ FILTER_none then filters_assign filters name true else filters)

/-- The member `filters` of the options returned by `get_default_options`.  The
table `FILTERS` and the index `FILTER_none` are declared in common.hpp and are
parameters here. -/
def get_default_options (FILTERS : List std_string) (FILTER_none : Nat) : filters_map :=
  get_default_options_loop FILTER_none FILTERS 0 (fun _ => none)

/-- The whitespace characters of the C locale: space, tab, newline, vertical
tab, form feed and carriage return. -/
def isspace (c : Char) : Bool :=
  c = Char.ofNat 32 || c = Char.ofNat 9 || c = Char.ofNat 10 || c = Char.ofNat 11 ||
    c = Char.ofNat 12 || c = Char.ofNat 13

/-- The algorithm `std::replace` on the characters of a string. -/
def replace (s : std_string) (old_value new_value : Char) : std_string :=
  s.map (fun c => if c = old_value then new_value else c)

/-- The words that successive extractions `stream >> word` deliver from a
string stream holding `s`: every extraction skips whitespace and reads up to the
next whitespace, so the words are the maximal runs of characters other than
whitespace.  The extraction after the last word fails and leaves `word` empty. -/
def extractions (s : std_string) : List std_string :=
  (s.splitOnP isspace).filter (fun word => !word.isEmpty)

/-- The loop `while (disabled_filters_ss)` of case 'f' over the words still to be
extracted.  `Except.error` stands for the error message and `exit(1)`.  When no
word is left the extraction fails, `disabled_filter` is empty, the else-branch
assigns to the key "" and the loop ends. -/
def disabled_filters_loop : List std_string → filters_map → Except std_string filters_map
  | [], filters => Except.ok (filters_assign filters [] false)
  | disabled_filter :: rest, filters =>
    if disabled_filter ≠ [] ∧ filters disabled_filter = none then
      Except.error disabled_filter
    else
      disabled_filters_loop rest (filters_assign filters disabled_filter false)

/-- Case 'f' of `parse_arguments`: the member `filters` after the case, or the
name reported with the error.  `parse_arguments` starts from the options of
`get_default_options` and rejects a second -f, so the case runs on the default
filter map. -/
def parse_arguments_f (optarg : std_string) (filters : filters_map) :
    Except std_string filters_map :=
  disabled_filters_loop (extractions (replace optarg (Char.ofNat 44) (Char.ofNat 32))) filters

/-- Separators of the list given to -f: the comma and whitespace. -/
def is_separator (c : Char) : Bool := c = Char.ofNat 44 || isspace c

/-- The tokens of a list separated by commas or whitespace, empty ones included. -/
def tokens (optarg : std_string) : List std_string := optarg.splitOnP is_separator

/-- Largest value of an `int` (32 bits). -/
def INT_MAX : Int := 2147483647

/-- Smallest value of an `int` (32 bits). -/
def INT_MIN : Int := -2147483648

/-- The decimal digits. -/
def isdigit (c : Char) : Bool := decide (48 ≤ c.toNat) && decide (c.toNat ≤ 57)

/-- The value of a string of decimal digits. -/
def digits_value (digits : std_string) : Int :=
  digits.foldl (fun acc c => 10 * acc + ((c.toNat - 48 : Nat) : Int)) 0

/-- The C library function `atoi`: it skips whitespace, reads an optional sign
and the decimal digits that follow, and ignores the rest of the string; without
digits the value is 0.  The result is `none` when the value is no `int`, where
the behaviour of `atoi` is undefined. -/
def atoi (s : std_string) : Option Int :=
  let s1 := s.dropWhile isspace
  let negative := decide (s1.head? = some (Char.ofNat 45))
  let s2 := if s1.head? = some (Char.ofNat 45) ∨ s1.head? = some (Char.ofNat 43) then s1.tail
    else s1
  let n := digits_value (s2.takeWhile isdigit)
  let value := if negative then -n else n
  if INT_MIN ≤ value ∧ value ≤ INT_MAX then some value else none

/-- The function `validate_int` for `int`: the returned flag and `value`. -/
def validate_int (optarg : std_string) (min_value max_value : Int) : Option (Bool × Int) :=
  match atoi optarg with
  | none => none
  | some value =>
    if optarg ≠ [Char.ofNat 48] ∧ value = 0 then some (false, value)
    else some (decide (value ≥ min_value ∧ value ≤ max_value), value)

/-- Conversion of an `unsigned int` to `int`. -/
def to_int (u : Nat) : Int := if (u : Int) ≤ INT_MAX then (u : Int) else (u : Int) - 4294967296

/-- The function `validate_int` for `unsigned int`: the returned flag and
`value`, which keeps its old value when the flag is false. -/
def validate_int_unsigned (optarg : std_string) (value min_value max_value : Nat) :
    Option (Bool × Nat) :=
  match validate_int optarg (to_int min_value) (to_int max_value) with
  | none => none
  | some (true, signed_int) => some (true, (signed_int % 4294967296).toNat)
  | some (false, _) => some (false, value)

/-- A table of filter names whose first entry stands for `FILTER_none`. -/
def example_FILTERS : List std_string :=
  ["none".toList, "duplicates".toList, "hairpin".toList, "mismatches".toList]

/-! ## is_breakpoint_within_aligned_segment on 32-bit integers -/

/-- The `int` with the same value modulo 2^32: the result of converting an
integer that the arithmetic on `unsigned int` has produced to `int`. -/
def wrap_int (x : Int) : Int := (x + 2147483648) % 4294967296 - 2147483648

/-- The loop of `is_breakpoint_within_aligned_segment` with the machine
arithmetic of the source: `position_t` is a 32-bit `int` and `op_length` an
`unsigned int` (both are declared in common.hpp; the cast `(int)` on line 20
shows the two types).  The statement `reference_position += op_length` adds in
`unsigned int` and converts back, so it wraps modulo 2^32.  The sum
`reference_position + (int) op_length` on line 20 is a signed addition, which is
evaluated only when `breakpoint >= reference_position` holds; the result is
`none` when that addition overflows, where the source has no defined
behaviour. -/
def is_breakpoint_within_aligned_segment_int32_loop (breakpoint : position_t) :
    position_t → cigar_t → Option Bool
  | _, [] => some false
  | reference_position, e :: rest =>
    match e.operation with
    | .BAM_CREF_SKIP | .BAM_CDEL =>
      is_breakpoint_within_aligned_segment_int32_loop breakpoint
        (wrap_int (reference_position + (e.op_length : Int))) rest
    | .BAM_CMATCH | .BAM_CDIFF | .BAM_CEQUAL =>
      if breakpoint ≥ reference_position then
        if reference_position + wrap_int (e.op_length : Int) < INT_MIN ∨
            INT_MAX < reference_position + wrap_int (e.op_length : Int) then
          none
        else if breakpoint ≤ reference_position + wrap_int (e.op_length : Int) then
          some true
        else
          is_breakpoint_within_aligned_segment_int32_loop breakpoint
            (wrap_int (reference_position + (e.op_length : Int))) rest
      else
        is_breakpoint_within_aligned_segment_int32_loop breakpoint
          (wrap_int (reference_position + (e.op_length : Int))) rest
    | _ =>
      is_breakpoint_within_aligned_segment_int32_loop breakpoint reference_position rest

/-- The function `is_breakpoint_within_aligned_segment` with the machine
arithmetic of the source. -/
def is_breakpoint_within_aligned_segment_int32 (breakpoint : position_t)
    (alignment : alignment_t) : Option Bool :=
  is_breakpoint_within_aligned_segment_int32_loop breakpoint alignment.start alignment.cigar

/-- No integer overflow on an alignment: its start is an `int`, its start plus
the lengths of all reference-consuming CIGAR elements does not exceed `INT_MAX`,
and every length fits an `int`. -/
def no_integer_overflow (alignment : alignment_t) : Bool :=
  decide (INT_MIN ≤ alignment.start) &&
    decide (alignment.start + reference_length alignment.cigar ≤ INT_MAX) &&
    alignment.cigar.all (fun e => decide ((e.op_length : Int) ≤ INT_MAX))

/-- Alignment from 100 whose CIGAR skips 16 times 268435455 bases and then
matches 100 bases: the skipped lengths add up to 2^32 - 16. -/
def wrapped_alignment : alignment_t :=
  { contig := 1, strand := strand_t.FORWARD, start := 100, end_ := 184,
    cigar := List.replicate 16 ⟨cigar_op.BAM_CREF_SKIP, 268435455⟩ ++
      [⟨cigar_op.BAM_CMATCH, 100⟩],
    genes := [] }

/-! # Theorems -/

/-! ## The walk over the CIGAR -/

theorem reference_length_nil : reference_length [] = 0 := rfl

theorem reference_length_cons (e : cigar_element) (rest : cigar_t) :
    reference_length (e :: rest) =
      (if consumes_reference e.operation then (e.op_length : Int) else 0)
        + reference_length rest := by
  unfold reference_length
  by_cases h : consumes_reference e.operation = true <;> simp [List.filter_cons, h]

theorem exists_index_cons {α : Type} (x : α) (xs : List α) (P : Nat → α → Prop) :
    (∃ i e, (x :: xs)[i]? = some e ∧ P i e) ↔ (P 0 x ∨ ∃ i e, xs[i]? = some e ∧ P (i + 1) e) := by
  constructor
  · rintro ⟨i, e, h, hp⟩
    cases i with
    | zero =>
      simp at h
      subst h
      exact Or.inl hp
    | succ i =>
      simp at h
      exact Or.inr ⟨i, e, h, hp⟩
  · rintro (hp | ⟨i, e, h, hp⟩)
    · exact ⟨0, x, by simp, hp⟩
    · exact ⟨i + 1, e, by simpa using h, hp⟩

theorem loop_true_iff (p : Int) : ∀ (cigar : cigar_t) (r : Int),
    is_breakpoint_within_aligned_segment_loop p r cigar = true ↔
      ∃ i e, cigar[i]? = some e ∧ (is_match_type e.operation = true ∧
        r + reference_length (cigar.take i) ≤ p ∧
        p ≤ r + reference_length (cigar.take i) + (e.op_length : Int))
  | [], r => by simp [is_breakpoint_within_aligned_segment_loop]
  | e :: rest, r => by
    rw [exists_index_cons e rest
      (fun i e' => is_match_type e'.operation = true ∧
        r + reference_length ((e :: rest).take i) ≤ p ∧
        p ≤ r + reference_length ((e :: rest).take i) + (e'.op_length : Int))]
    simp only [List.take_zero, List.take_succ_cons, reference_length_nil, reference_length_cons,
      add_zero]
    have ih := loop_true_iff p rest
    cases hop : e.operation <;>
      simp [is_breakpoint_within_aligned_segment_loop, hop, is_match_type, consumes_reference, ih,
        add_assoc]

/-- C1: `is_breakpoint_within_aligned_segment p alignment` is true exactly when
the CIGAR holds a match-type element (M, X or =) of length L whose reference
start R, the start of the alignment plus the lengths of all earlier
reference-consuming elements, satisfies R <= p <= R + L.  For a single match run
of length 50 starting at 100 it is true at 100 and 150 and false at 99 and 151. -/
theorem C1_breakpoint_within_aligned_segment_iff :
    (∀ (p : position_t) (alignment : alignment_t),
      is_breakpoint_within_aligned_segment p alignment = true ↔
        ∃ i e, alignment.cigar[i]? = some e ∧ is_match_type e.operation = true ∧
          reference_start alignment i ≤ p ∧
          p ≤ reference_start alignment i + (e.op_length : Int)) ∧
    (∀ (contig : contig_t) (strand : strand_t) (end_ : position_t) (genes : gene_set_t),
      is_breakpoint_within_aligned_segment 100
          ⟨contig, strand, 100, end_, [⟨cigar_op.BAM_CMATCH, 50⟩], genes⟩ = true ∧
      is_breakpoint_within_aligned_segment 150
          ⟨contig, strand, 100, end_, [⟨cigar_op.BAM_CMATCH, 50⟩], genes⟩ = true ∧
      is_breakpoint_within_aligned_segment 99
          ⟨contig, strand, 100, end_, [⟨cigar_op.BAM_CMATCH, 50⟩], genes⟩ = false ∧
      is_breakpoint_within_aligned_segment 151
          ⟨contig, strand, 100, end_, [⟨cigar_op.BAM_CMATCH, 50⟩], genes⟩ = false) := by
  refine ⟨fun p alignment => ?_, fun contig strand end_ genes => ?_⟩
  · unfold is_breakpoint_within_aligned_segment reference_start
    exact loop_true_iff p alignment.cigar alignment.start
  · simp [is_breakpoint_within_aligned_segment, is_breakpoint_within_aligned_segment_loop]

/-! ## One iteration of the loop of filter_hairpin -/

theorem iteration_eq (m : mates_t) (r : Nat) :
    filter_hairpin_iteration m r =
      (filter_hairpin_outcome m).map (fun m' => (m', count_remaining m' r)) := by
  unfold filter_hairpin_outcome filter_hairpin_iteration count_remaining
  by_cases hf : m.filter = filter_t.FILTER_none
  · simp only [hf, ne_eq, not_true_eq_false, if_false]
    repeat' split
    all_goals simp_all
  · simp [hf]

theorem outcome_some_of_size (m : mates_t)
    (h : m.filter = filter_t.FILTER_none → 2 ≤ m.alignments.length) :
    ∃ m', filter_hairpin_outcome m = some m' := by
  unfold filter_hairpin_outcome filter_hairpin_iteration
  by_cases hf : m.filter = filter_t.FILTER_none
  · have h2 := h hf
    obtain ⟨al, f⟩ := m
    simp only at hf h2
    subst hf
    match al, h2 with
    | [a, b], _ =>
      simp [MATE1, MATE2]
      repeat' split
      all_goals simp
    | a :: b :: c :: rest, _ =>
      simp [MATE1, MATE2, SPLIT_READ, SUPPLEMENTARY]
      repeat' split
      all_goals simp
  · exact ⟨m, by simp [hf]⟩

theorem outcome_cases (m m' : mates_t) (h : filter_hairpin_outcome m = some m') :
    m' = m ∨ (m.filter = filter_t.FILTER_none ∧
      m' = { m with filter := filter_t.FILTER_hairpin }) := by
  unfold filter_hairpin_outcome filter_hairpin_iteration at h
  by_cases hf : m.filter = filter_t.FILTER_none
  · simp only [hf, ne_eq, not_true_eq_false, if_false] at h
    repeat' split at h
    all_goals simp_all
  · simp [hf] at h
    exact Or.inl h.symm

theorem outcome_of_filtered (m : mates_t) (hf : m.filter ≠ filter_t.FILTER_none) :
    filter_hairpin_outcome m = some m := by
  simp [filter_hairpin_outcome, filter_hairpin_iteration, hf]

theorem outcome_idempotent (m m' : mates_t) (h : filter_hairpin_outcome m = some m') :
    filter_hairpin_outcome m' = some m' := by
  rcases outcome_cases m m' h with rfl | ⟨_, rfl⟩
  · exact h
  · exact outcome_of_filtered _ (by simp)

theorem outcome_alignments (m m' : mates_t) (h : filter_hairpin_outcome m = some m') :
    m'.alignments = m.alignments := by
  rcases outcome_cases m m' h with rfl | ⟨_, rfl⟩ <;> rfl

theorem outcome_of_iteration (m m' : mates_t) (r r' : Nat)
    (h : filter_hairpin_iteration m r = some (m', r')) : filter_hairpin_outcome m = some m' := by
  rw [iteration_eq] at h
  cases ho : filter_hairpin_outcome m with
  | none => simp [ho] at h
  | some m'' =>
    simp [ho] at h
    rw [h.1]

/-! ## The loop of filter_hairpin -/

theorem count_remaining_lt (m : mates_t) (r : Nat) (hr : r < UINT_MAX + 1) :
    count_remaining m r < UINT_MAX + 1 := by
  unfold count_remaining increment
  split
  · exact Nat.mod_lt _ (by decide)
  · exact hr

theorem unfiltered_count_cons (e : String × mates_t) (rest : chimeric_alignments_t) :
    unfiltered_count (e :: rest) =
      unfiltered_count rest + (if e.2.filter = filter_t.FILTER_none then 1 else 0) := by
  unfold unfiltered_count
  rw [List.countP_cons]
  simp

theorem unfiltered_count_append (xs ys : chimeric_alignments_t) :
    unfiltered_count (xs ++ ys) = unfiltered_count xs + unfiltered_count ys := by
  unfold unfiltered_count
  exact List.countP_append _ xs ys

theorem count_remaining_add (m : mates_t) (r c : Nat) :
    (count_remaining m r + c) % (UINT_MAX + 1) =
      (r + (c + (if m.filter = filter_t.FILTER_none then 1 else 0))) % (UINT_MAX + 1) := by
  unfold count_remaining increment
  split
  · rw [Nat.add_mod, Nat.mod_mod, ← Nat.add_mod]
    congr 1
    omega
  · simp

theorem loop_some_iff : ∀ (cs : chimeric_alignments_t) (r : Nat) (out : chimeric_alignments_t)
    (r' : Nat), r < UINT_MAX + 1 →
    (filter_hairpin_loop cs r = some (out, r') ↔
      (cs.map filter_hairpin_entry = out.map some ∧
        r' = (r + unfiltered_count out) % (UINT_MAX + 1)))
  | [], r, out, r', hr => by
    cases out with
    | nil => simp [filter_hairpin_loop, unfiltered_count, Nat.mod_eq_of_lt hr, eq_comm]
    | cons e out => simp [filter_hairpin_loop]
  | (name, m) :: rest, r, out, r', hr => by
    rw [filter_hairpin_loop, iteration_eq]
    cases hm : filter_hairpin_outcome m with
    | none =>
      cases out with
      | nil => simp
      | cons e out => simp [filter_hairpin_entry, hm]
    | some m' =>
      simp only [Option.map_some']
      have ih := loop_some_iff rest (count_remaining m' r)
      cases out with
      | nil =>
        cases hl : filter_hairpin_loop rest (count_remaining m' r) with
        | none => simp
        | some p => simp
      | cons e out =>
        have ih' := ih out r' (count_remaining_lt m' r hr)
        rw [count_remaining_add] at ih'
        cases hl : filter_hairpin_loop rest (count_remaining m' r) with
        | none =>
          rw [hl] at ih'
          simp only [false_iff, reduceCtorEq] at ih' ⊢
          intro h
          apply ih'
          simp only [List.map_cons, List.cons.injEq, filter_hairpin_entry, hm,
            Option.map_some', Option.some.injEq] at h
          refine ⟨h.1.2, ?_⟩
          rw [h.2, unfiltered_count_cons, ← h.1.1]
        | some p =>
          obtain ⟨rest', res⟩ := p
          rw [hl] at ih'
          simp only [Option.some.injEq, Prod.mk.injEq, List.cons.injEq, List.map_cons,
            filter_hairpin_entry, hm, Option.map_some']
          constructor
          · rintro ⟨⟨he, hrest⟩, hres⟩
            subst he hrest hres
            have := ih'.1 rfl
            rw [unfiltered_count_cons]
            exact ⟨⟨rfl, this.1⟩, this.2⟩
          · rintro ⟨⟨he, hmap⟩, hres⟩
            subst he
            rw [unfiltered_count_cons] at hres
            have := (ih out r' (count_remaining_lt m' r hr)).2
              ⟨hmap, by rw [count_remaining_add]; exact hres⟩
            rw [hl] at this
            simp only [Option.some.injEq, Prod.mk.injEq] at this
            exact ⟨⟨rfl, this.1⟩, this.2⟩

/-- The run of `filter_hairpin`, entry by entry. -/
theorem filter_hairpin_some_iff {ι : Type} (cs out : chimeric_alignments_t) (idx : ι) (gap : Int)
    (r : Nat) :
    filter_hairpin cs idx gap = some (out, r) ↔
      (cs.map filter_hairpin_entry = out.map some ∧
        r = unfiltered_count out % (UINT_MAX + 1)) := by
  unfold filter_hairpin
  rw [loop_some_iff cs 0 out r (by decide), Nat.zero_add]

theorem entries_exist : ∀ (cs : chimeric_alignments_t),
    (∀ e ∈ cs, e.2.filter = filter_t.FILTER_none → 2 ≤ e.2.alignments.length) →
    ∃ out : chimeric_alignments_t, cs.map filter_hairpin_entry = out.map some
  | [], _ => ⟨[], rfl⟩
  | e :: rest, h => by
    obtain ⟨out, hout⟩ := entries_exist rest (fun x hx => h x (List.mem_cons_of_mem _ hx))
    obtain ⟨m', hm'⟩ := outcome_some_of_size e.2 (h e (List.mem_cons_self _ _))
    exact ⟨(e.1, m') :: out, by simp [filter_hairpin_entry, hm', hout]⟩

/-- A run on candidates that all hold the records the loop reads returns. -/
theorem filter_hairpin_returns {ι : Type} (cs : chimeric_alignments_t) (idx : ι) (gap : Int)
    (h : ∀ e ∈ cs, e.2.filter = filter_t.FILTER_none → 2 ≤ e.2.alignments.length) :
    ∃ out r, filter_hairpin cs idx gap = some (out, r) := by
  obtain ⟨out, hout⟩ := entries_exist cs h
  exact ⟨out, _, (filter_hairpin_some_iff cs out idx gap _).2 ⟨hout, rfl⟩⟩

theorem increment_mod (c : Nat) :
    increment (c % (UINT_MAX + 1)) = (c + 1) % (UINT_MAX + 1) := by
  unfold increment
  rw [Nat.add_mod, Nat.mod_mod, ← Nat.add_mod]

/-- The run on a candidate set into which one more candidate is inserted. -/
theorem filter_hairpin_insert {ι : Type} (pre post : chimeric_alignments_t) (name : String)
    (m m' : mates_t) (idx : ι) (gap : Int)
    (hpre : ∀ e ∈ pre, e.2.filter = filter_t.FILTER_none → 2 ≤ e.2.alignments.length)
    (hpost : ∀ e ∈ post, e.2.filter = filter_t.FILTER_none → 2 ≤ e.2.alignments.length)
    (hm : filter_hairpin_outcome m = some m') :
    ∃ pre' post' r₀, pre'.length = pre.length ∧
      filter_hairpin (pre ++ post) idx gap = some (pre' ++ post', r₀) ∧
      filter_hairpin (pre ++ (name, m) :: post) idx gap =
        some (pre' ++ (name, m') :: post', count_remaining m' r₀) := by
  obtain ⟨pre', hpre'⟩ := entries_exist pre hpre
  obtain ⟨post', hpost'⟩ := entries_exist post hpost
  refine ⟨pre', post', unfiltered_count (pre' ++ post') % (UINT_MAX + 1), ?_, ?_, ?_⟩
  · have := congrArg List.length hpre'
    simpa using this.symm
  · exact (filter_hairpin_some_iff _ _ idx gap _).2 ⟨by simp [hpre', hpost'], rfl⟩
  · refine (filter_hairpin_some_iff _ _ idx gap _).2
      ⟨by simp [hpre', hpost', filter_hairpin_entry, hm], ?_⟩
    rw [unfiltered_count_append, unfiltered_count_append, unfiltered_count_cons]
    unfold count_remaining
    split
    · rw [increment_mod]
      congr 1
    · simp

/-! ## Gene overlap -/

theorem common_genes_isEmpty_iff (genes1 genes2 : gene_set_t) :
    (combine_annotations genes1 genes2 false).isEmpty = true ↔ ∀ g, g ∈ genes1 → g ∉ genes2 := by
  simp [combine_annotations, List.isEmpty_iff, List.filter_eq_nil_iff]

theorem shares_gene_or_contig (a b : alignment_t)
    (h : (∃ g, g ∈ a.genes ∧ g ∈ b.genes) ∨ a.contig = b.contig) :
    ¬ ((combine_annotations a.genes b.genes false).isEmpty = true ∧ a.contig ≠ b.contig) := by
  rw [common_genes_isEmpty_iff]
  rintro ⟨hg, hc⟩
  rcases h with ⟨g, h1, h2⟩ | h
  · exact hg g h1 h2
  · exact hc h

/-! ## Iterations on the two shapes of a candidate -/

theorem iteration_discordant (mate1 mate2 : alignment_t) (remaining : Nat)
    (hshare : (∃ g, g ∈ mate1.genes ∧ g ∈ mate2.genes) ∨ mate1.contig = mate2.contig) :
    filter_hairpin_iteration ⟨[mate1, mate2], filter_t.FILTER_none⟩ remaining =
      some (if is_breakpoint_within_aligned_segment (breakpoint_position mate1) mate2 = true ∨
              is_breakpoint_within_aligned_segment (breakpoint_position mate2) mate1 = true
            then (⟨[mate1, mate2], filter_t.FILTER_hairpin⟩, remaining)
            else (⟨[mate1, mate2], filter_t.FILTER_none⟩, increment remaining)) := by
  have hs := shares_gene_or_contig mate1 mate2 hshare
  simp only [filter_hairpin_iteration, breakpoint_position, MATE1, MATE2]
  simp only [ne_eq, not_true_eq_false, if_false, List.length_cons, List.length_nil,
    List.getElem?_cons_zero, List.getElem?_cons_succ, if_true, Nat.reduceAdd]
  rw [if_neg hs]
  simp only [Bool.or_eq_true]
  rw [apply_ite some]

theorem iteration_split_read (mate1 split_read supplementary : alignment_t) (remaining : Nat)
    (hshare : (∃ g, g ∈ split_read.genes ∧ g ∈ supplementary.genes) ∨
      split_read.contig = supplementary.contig) :
    filter_hairpin_iteration ⟨[mate1, split_read, supplementary], filter_t.FILTER_none⟩
        remaining =
      some (if is_breakpoint_within_aligned_segment
                (if split_read.strand = strand_t.FORWARD then split_read.start
                  else split_read.end_) supplementary = true ∨
              is_breakpoint_within_aligned_segment (breakpoint_position supplementary)
                split_read = true ∨
              is_breakpoint_within_aligned_segment (breakpoint_position supplementary)
                mate1 = true
            then (⟨[mate1, split_read, supplementary], filter_t.FILTER_hairpin⟩, remaining)
            else (⟨[mate1, split_read, supplementary], filter_t.FILTER_none⟩,
              increment remaining)) := by
  have hs := shares_gene_or_contig split_read supplementary hshare
  simp only [filter_hairpin_iteration, breakpoint_position, MATE1, SPLIT_READ, SUPPLEMENTARY]
  simp only [ne_eq, not_true_eq_false, if_false, List.length_cons, List.length_nil,
    List.getElem?_cons_zero, List.getElem?_cons_succ, Nat.reduceAdd, Nat.reduceEqDiff]
  rw [if_neg hs]
  simp only [Bool.or_eq_true]
  by_cases h1 : is_breakpoint_within_aligned_segment
      (if split_read.strand = strand_t.FORWARD then split_read.start else split_read.end_)
      supplementary = true
  · simp [h1]
  · by_cases h2 : is_breakpoint_within_aligned_segment
        (if supplementary.strand = strand_t.FORWARD then supplementary.end_
          else supplementary.start) split_read = true
    · simp [h2]
    · by_cases h3 : is_breakpoint_within_aligned_segment
          (if supplementary.strand = strand_t.FORWARD then supplementary.end_
            else supplementary.start) mate1 = true
      · simp [h1, h2, h3]
      · simp [h1, h2, h3]

theorem iteration_filtered (m : mates_t) (remaining : Nat)
    (hf : m.filter ≠ filter_t.FILTER_none) :
    filter_hairpin_iteration m remaining = some (m, remaining) := by
  simp [filter_hairpin_iteration, hf]

theorem iteration_intergenic (m : mates_t) (remaining : Nat)
    (hf : m.filter = filter_t.FILTER_none)
    (hsides :
      (∃ mate1 mate2, m.alignments = [mate1, mate2] ∧
        (∀ g, g ∈ mate1.genes → g ∉ mate2.genes) ∧ mate1.contig ≠ mate2.contig) ∨
      (∃ mate1 split_read supplementary more,
        m.alignments = mate1 :: split_read :: supplementary :: more ∧
        (∀ g, g ∈ split_read.genes → g ∉ supplementary.genes) ∧
        split_read.contig ≠ supplementary.contig)) :
    filter_hairpin_iteration m remaining = some (m, increment remaining) := by
  obtain ⟨al, f⟩ := m
  simp only at hf hsides
  subst hf
  rcases hsides with ⟨a, b, rfl, hg, hc⟩ | ⟨a, b, c, more, rfl, hg, hc⟩
  · have he := (common_genes_isEmpty_iff a.genes b.genes).2 hg
    simp only [filter_hairpin_iteration, MATE1, MATE2]
    simp only [ne_eq, not_true_eq_false, if_false, List.length_cons, List.length_nil,
      List.getElem?_cons_zero, List.getElem?_cons_succ, if_true, Nat.reduceAdd]
    rw [if_pos ⟨he, hc⟩]
  · have he := (common_genes_isEmpty_iff b.genes c.genes).2 hg
    simp only [filter_hairpin_iteration, SPLIT_READ, SUPPLEMENTARY]
    have hl : ¬ ((a :: b :: c :: more).length = 2) := by simp
    simp only [ne_eq, not_true_eq_false, if_false, hl,
      List.getElem?_cons_zero, List.getElem?_cons_succ]
    rw [if_pos ⟨he, hc⟩]

/-! ## Discordant mates -/

/-- C2: for a two-record candidate with verdict unfiltered whose mates share a
gene or lie on the same contig, `filter_hairpin` sets the verdict to hairpin if
and only if the breakpoint of mate1 lies within the aligned segment of mate2 or
the breakpoint of mate2 lies within the aligned segment of mate1 (the breakpoint
of a mate being its end on the forward strand and its start otherwise); when
neither holds the verdict stays unfiltered and the candidate is counted as
remaining.  Stated for one iteration of the loop at any value of the counter,
and for the run on any candidate set that holds the candidate. -/
theorem C2_discordant_mates_hairpin_iff {ι : Type} (pre post : chimeric_alignments_t)
    (name : String) (mate1 mate2 : alignment_t) (idx : ι) (gap : Int)
    (hshare : (∃ g, g ∈ mate1.genes ∧ g ∈ mate2.genes) ∨ mate1.contig = mate2.contig)
    (hpre : ∀ e ∈ pre, e.2.filter = filter_t.FILTER_none → 2 ≤ e.2.alignments.length)
    (hpost : ∀ e ∈ post, e.2.filter = filter_t.FILTER_none → 2 ≤ e.2.alignments.length) :
    (∀ remaining : Nat,
      filter_hairpin_iteration ⟨[mate1, mate2], filter_t.FILTER_none⟩ remaining =
        some (if is_breakpoint_within_aligned_segment (breakpoint_position mate1) mate2 = true ∨
                is_breakpoint_within_aligned_segment (breakpoint_position mate2) mate1 = true
              then (⟨[mate1, mate2], filter_t.FILTER_hairpin⟩, remaining)
              else (⟨[mate1, mate2], filter_t.FILTER_none⟩, increment remaining))) ∧
    ∃ pre' post' r₀, pre'.length = pre.length ∧
      filter_hairpin (pre ++ post) idx gap = some (pre' ++ post', r₀) ∧
      filter_hairpin (pre ++ (name, ⟨[mate1, mate2], filter_t.FILTER_none⟩) :: post) idx gap =
        some (if is_breakpoint_within_aligned_segment (breakpoint_position mate1) mate2 = true ∨
                is_breakpoint_within_aligned_segment (breakpoint_position mate2) mate1 = true
              then (pre' ++ (name, ⟨[mate1, mate2], filter_t.FILTER_hairpin⟩) :: post', r₀)
              else (pre' ++ (name, ⟨[mate1, mate2], filter_t.FILTER_none⟩) :: post',
                increment r₀)) := by
  refine ⟨fun remaining => iteration_discordant mate1 mate2 remaining hshare, ?_⟩
  have h0 := iteration_discordant mate1 mate2 0 hshare
  by_cases hc : is_breakpoint_within_aligned_segment (breakpoint_position mate1) mate2 = true ∨
      is_breakpoint_within_aligned_segment (breakpoint_position mate2) mate1 = true
  · rw [if_pos hc] at h0
    obtain ⟨pre', post', r₀, hl, h1, h2⟩ := filter_hairpin_insert pre post name _ _ idx gap
      hpre hpost (outcome_of_iteration _ _ _ _ h0)
    refine ⟨pre', post', r₀, hl, h1, ?_⟩
    rw [if_pos hc, h2]
    simp [count_remaining]
  · rw [if_neg hc] at h0
    obtain ⟨pre', post', r₀, hl, h1, h2⟩ := filter_hairpin_insert pre post name _ _ idx gap
      hpre hpost (outcome_of_iteration _ _ _ _ h0)
    refine ⟨pre', post', r₀, hl, h1, ?_⟩
    rw [if_neg hc, h2]
    simp [count_remaining]

/-- C2 at the two scenarios of the spec: mate1 forward with breakpoint 150 and
mate2 covering [140,200) is tagged hairpin; with mate2 covering [200,250) the
candidate stays unfiltered and is counted. -/
theorem C2_discordant_mates_witness :
    ((∃ g, g ∈ forward_mate1.genes ∧ g ∈ overlapping_mate2.genes) ∨
      forward_mate1.contig = overlapping_mate2.contig) ∧
    ((∃ g, g ∈ forward_mate1.genes ∧ g ∈ distant_mate2.genes) ∨
      forward_mate1.contig = distant_mate2.contig) ∧
    filter_hairpin_iteration hairpin_mates 0 =
      some (⟨[forward_mate1, overlapping_mate2], filter_t.FILTER_hairpin⟩, 0) ∧
    filter_hairpin_iteration distant_mates 0 = some (distant_mates, 1) ∧
    ∃ pre' post' r₀, pre'.length = 1 ∧
      filter_hairpin ([("read1", hairpin_mates)] ++ []) () 0 = some (pre' ++ post', r₀) ∧
      filter_hairpin ([("read1", hairpin_mates)] ++ ("read2", distant_mates) :: []) () 0 =
        some (pre' ++ ("read2", distant_mates) :: post', increment r₀) :=
  ⟨Or.inr rfl, Or.inr rfl,
    (C2_discordant_mates_hairpin_iff [] [] "read1" forward_mate1 overlapping_mate2 () 0
      (Or.inr rfl) (by simp) (by simp)).1 0,
    (C2_discordant_mates_hairpin_iff [] [] "read2" forward_mate1 distant_mate2 () 0
      (Or.inr rfl) (by simp) (by simp)).1 0,
    (C2_discordant_mates_hairpin_iff [("read1", hairpin_mates)] [] "read2" forward_mate1
      distant_mate2 () 0 (Or.inr rfl) (by simp [hairpin_mates]) (by simp)).2⟩

/-! ## Split reads -/

/-- C3 (as the code has it): for a three-record split-read candidate (mate1,
split_read, supplementary) with verdict unfiltered whose split read and
supplementary share a gene or lie on the same contig, `filter_hairpin` sets the
verdict to hairpin if and only if the breakpoint of the split read lies within
the supplementary alignment, or the breakpoint of the supplementary lies within
the split read, or within mate1; the breakpoint of the split read is its start on
the forward strand and its end on the reverse strand, the breakpoint of the
supplementary is its end on the forward strand and its start on the reverse
strand.  Otherwise the verdict stays unfiltered and the candidate is counted. -/
theorem C3_split_read_hairpin_iff {ι : Type} (pre post : chimeric_alignments_t)
    (name : String) (mate1 split_read supplementary : alignment_t) (idx : ι) (gap : Int)
    (hshare : (∃ g, g ∈ split_read.genes ∧ g ∈ supplementary.genes) ∨
      split_read.contig = supplementary.contig)
    (hpre : ∀ e ∈ pre, e.2.filter = filter_t.FILTER_none → 2 ≤ e.2.alignments.length)
    (hpost : ∀ e ∈ post, e.2.filter = filter_t.FILTER_none → 2 ≤ e.2.alignments.length) :
    (∀ remaining : Nat,
      filter_hairpin_iteration ⟨[mate1, split_read, supplementary], filter_t.FILTER_none⟩
          remaining =
        some (if is_breakpoint_within_aligned_segment
                  (if split_read.strand = strand_t.FORWARD then split_read.start
                    else split_read.end_) supplementary = true ∨
                is_breakpoint_within_aligned_segment (breakpoint_position supplementary)
                  split_read = true ∨
                is_breakpoint_within_aligned_segment (breakpoint_position supplementary)
                  mate1 = true
              then (⟨[mate1, split_read, supplementary], filter_t.FILTER_hairpin⟩, remaining)
              else (⟨[mate1, split_read, supplementary], filter_t.FILTER_none⟩,
                increment remaining))) ∧
    ∃ pre' post' r₀, pre'.length = pre.length ∧
      filter_hairpin (pre ++ post) idx gap = some (pre' ++ post', r₀) ∧
      filter_hairpin
          (pre ++ (name, ⟨[mate1, split_read, supplementary], filter_t.FILTER_none⟩) :: post)
          idx gap =
        some (if is_breakpoint_within_aligned_segment
                  (if split_read.strand = strand_t.FORWARD then split_read.start
                    else split_read.end_) supplementary = true ∨
                is_breakpoint_within_aligned_segment (breakpoint_position supplementary)
                  split_read = true ∨
                is_breakpoint_within_aligned_segment (breakpoint_position supplementary)
                  mate1 = true
              then (pre' ++
                (name, ⟨[mate1, split_read, supplementary], filter_t.FILTER_hairpin⟩) :: post',
                r₀)
              else (pre' ++
                (name, ⟨[mate1, split_read, supplementary], filter_t.FILTER_none⟩) :: post',
                increment r₀)) := by
  refine ⟨fun remaining => iteration_split_read mate1 split_read supplementary remaining hshare,
    ?_⟩
  have h0 := iteration_split_read mate1 split_read supplementary 0 hshare
  by_cases hc : is_breakpoint_within_aligned_segment
        (if split_read.strand = strand_t.FORWARD then split_read.start
          else split_read.end_) supplementary = true ∨
      is_breakpoint_within_aligned_segment (breakpoint_position supplementary)
        split_read = true ∨
      is_breakpoint_within_aligned_segment (breakpoint_position supplementary) mate1 = true
  · rw [if_pos hc] at h0
    obtain ⟨pre', post', r₀, hl, h1, h2⟩ := filter_hairpin_insert pre post name _ _ idx gap
      hpre hpost (outcome_of_iteration _ _ _ _ h0)
    refine ⟨pre', post', r₀, hl, h1, ?_⟩
    rw [if_pos hc, h2]
    simp [count_remaining]
  · rw [if_neg hc] at h0
    obtain ⟨pre', post', r₀, hl, h1, h2⟩ := filter_hairpin_insert pre post name _ _ idx gap
      hpre hpost (outcome_of_iteration _ _ _ _ h0)
    refine ⟨pre', post', r₀, hl, h1, ?_⟩
    rw [if_neg hc, h2]
    simp [count_remaining]

/-- C3 at two split reads on one contig: the forward split read starting at 100
whose supplementary covers [60,100) is tagged hairpin, the one whose
supplementary covers [140,170) stays unfiltered and is counted. -/
theorem C3_split_read_witness :
    ((∃ g, g ∈ forward_split_read.genes ∧ g ∈ upstream_supplementary.genes) ∨
      forward_split_read.contig = upstream_supplementary.contig) ∧
    ((∃ g, g ∈ forward_split_read.genes ∧ g ∈ forward_supplementary.genes) ∨
      forward_split_read.contig = forward_supplementary.contig) ∧
    filter_hairpin_iteration split_read_hairpin 0 =
      some (⟨[far_mate1, forward_split_read, upstream_supplementary],
        filter_t.FILTER_hairpin⟩, 0) ∧
    filter_hairpin_iteration split_read_candidate 0 = some (split_read_candidate, 1) ∧
    ∃ pre' post' r₀, pre'.length = 1 ∧
      filter_hairpin ([("read1", split_read_candidate)] ++ []) () 0 = some (pre' ++ post', r₀) ∧
      filter_hairpin ([("read1", split_read_candidate)] ++ ("read2", split_read_hairpin) :: [])
          () 0 =
        some (pre' ++ ("read2", ⟨[far_mate1, forward_split_read, upstream_supplementary],
          filter_t.FILTER_hairpin⟩) :: post', r₀) :=
  ⟨Or.inr rfl, Or.inr rfl,
    (C3_split_read_hairpin_iff [] [] "read2" far_mate1 forward_split_read upstream_supplementary
      () 0 (Or.inr rfl) (by simp) (by simp)).1 0,
    (C3_split_read_hairpin_iff [] [] "read1" far_mate1 forward_split_read forward_supplementary
      () 0 (Or.inr rfl) (by simp) (by simp)).1 0,
    (C3_split_read_hairpin_iff [("read1", split_read_candidate)] [] "read2" far_mate1
      forward_split_read upstream_supplementary () 0 (Or.inr rfl)
      (by simp [split_read_candidate]) (by simp)).2⟩

/-- C3 as the spec states it fails: the split read and the supplementary lie on
one contig, the end of the forward split read (its breakpoint according to
`breakpoint_position`) lies within the supplementary alignment, and yet
`filter_hairpin` leaves the candidate unfiltered and counts it. -/
theorem C3_split_read_counterexample :
    split_read_candidate.alignments = [far_mate1, forward_split_read, forward_supplementary] ∧
    split_read_candidate.filter = filter_t.FILTER_none ∧
    forward_split_read.contig = forward_supplementary.contig ∧
    is_breakpoint_within_aligned_segment (breakpoint_position forward_split_read)
      forward_supplementary = true ∧
    filter_hairpin [("read1", split_read_candidate)] () 0 =
      some ([("read1", split_read_candidate)], 1) := by
  refine ⟨rfl, rfl, rfl, by decide, by decide⟩

/-! ## Candidates that are skipped or passed over -/

/-- C4: a candidate whose verdict is already a filter tag when `filter_hairpin`
starts keeps that tag, whatever its records (it may hold none at all), and adds
nothing to the returned count: the iteration leaves the candidate and the counter
as they are, and the run on a candidate set that holds the candidate returns the
count of the run without it. -/
theorem C4_filtered_candidate_kept {ι : Type} (pre post : chimeric_alignments_t)
    (name : String) (candidate : mates_t) (idx : ι) (gap : Int)
    (hf : candidate.filter ≠ filter_t.FILTER_none)
    (hpre : ∀ e ∈ pre, e.2.filter = filter_t.FILTER_none → 2 ≤ e.2.alignments.length)
    (hpost : ∀ e ∈ post, e.2.filter = filter_t.FILTER_none → 2 ≤ e.2.alignments.length) :
    (∀ remaining : Nat,
      filter_hairpin_iteration candidate remaining = some (candidate, remaining)) ∧
    ∃ pre' post' r₀, pre'.length = pre.length ∧
      filter_hairpin (pre ++ post) idx gap = some (pre' ++ post', r₀) ∧
      filter_hairpin (pre ++ (name, candidate) :: post) idx gap =
        some (pre' ++ (name, candidate) :: post', r₀) := by
  refine ⟨fun remaining => iteration_filtered candidate remaining hf, ?_⟩
  obtain ⟨pre', post', r₀, hl, h1, h2⟩ := filter_hairpin_insert pre post name candidate candidate
    idx gap hpre hpost (outcome_of_filtered candidate hf)
  refine ⟨pre', post', r₀, hl, h1, ?_⟩
  rw [h2]
  simp [count_remaining, hf]

/-- C4 at a candidate without records that an earlier filter rejected, placed
between two unfiltered reads. -/
theorem C4_filtered_candidate_witness :
    filtered_candidate.filter ≠ filter_t.FILTER_none ∧
    (∀ remaining : Nat,
      filter_hairpin_iteration filtered_candidate remaining =
        some (filtered_candidate, remaining)) ∧
    ∃ pre' post' r₀, pre'.length = 1 ∧
      filter_hairpin ([("read1", hairpin_mates)] ++ [("read2", distant_mates)]) () 0 =
        some (pre' ++ post', r₀) ∧
      filter_hairpin
          ([("read1", hairpin_mates)] ++ ("read0", filtered_candidate) ::
            [("read2", distant_mates)]) () 0 =
        some (pre' ++ ("read0", filtered_candidate) :: post', r₀) :=
  ⟨by decide,
    C4_filtered_candidate_kept [("read1", hairpin_mates)] [("read2", distant_mates)] "read0"
      filtered_candidate () 0 (by decide) (by simp [hairpin_mates]) (by simp [distant_mates])⟩

/-- C6: an unfiltered candidate whose two sides (mate1 and mate2 of a two-record
candidate, split_read and supplementary otherwise) have no gene in common and
lie on different contigs stays unfiltered and is counted as remaining, whatever
the strands, positions and CIGARs of its records. -/
theorem C6_intergenic_candidate_remains {ι : Type} (pre post : chimeric_alignments_t)
    (name : String) (candidate : mates_t) (idx : ι) (gap : Int)
    (hf : candidate.filter = filter_t.FILTER_none)
    (hsides :
      (∃ mate1 mate2, candidate.alignments = [mate1, mate2] ∧
        (∀ g, g ∈ mate1.genes → g ∉ mate2.genes) ∧ mate1.contig ≠ mate2.contig) ∨
      (∃ mate1 split_read supplementary more,
        candidate.alignments = mate1 :: split_read :: supplementary :: more ∧
        (∀ g, g ∈ split_read.genes → g ∉ supplementary.genes) ∧
        split_read.contig ≠ supplementary.contig))
    (hpre : ∀ e ∈ pre, e.2.filter = filter_t.FILTER_none → 2 ≤ e.2.alignments.length)
    (hpost : ∀ e ∈ post, e.2.filter = filter_t.FILTER_none → 2 ≤ e.2.alignments.length) :
    (∀ remaining : Nat,
      filter_hairpin_iteration candidate remaining = some (candidate, increment remaining)) ∧
    ∃ pre' post' r₀, pre'.length = pre.length ∧
      filter_hairpin (pre ++ post) idx gap = some (pre' ++ post', r₀) ∧
      filter_hairpin (pre ++ (name, candidate) :: post) idx gap =
        some (pre' ++ (name, candidate) :: post', increment r₀) := by
  refine ⟨fun remaining => iteration_intergenic candidate remaining hf hsides, ?_⟩
  obtain ⟨pre', post', r₀, hl, h1, h2⟩ := filter_hairpin_insert pre post name candidate candidate
    idx gap hpre hpost
    (outcome_of_iteration _ _ _ _ (iteration_intergenic candidate 0 hf hsides))
  refine ⟨pre', post', r₀, hl, h1, ?_⟩
  rw [h2]
  simp [count_remaining, hf]

/-- C6 at mates on contigs 1 and 2 in genes 7 and 8, although the breakpoint 150
of mate1 lies within the segment [140,200] of mate2. -/
theorem C6_intergenic_candidate_witness :
    intergenic_mates.filter = filter_t.FILTER_none ∧
    is_breakpoint_within_aligned_segment (breakpoint_position forward_mate1)
      other_contig_mate2 = true ∧
    (∀ remaining : Nat,
      filter_hairpin_iteration intergenic_mates remaining =
        some (intergenic_mates, increment remaining)) ∧
    ∃ pre' post' r₀, pre'.length = 1 ∧
      filter_hairpin ([("read1", hairpin_mates)] ++ []) () 0 = some (pre' ++ post', r₀) ∧
      filter_hairpin ([("read1", hairpin_mates)] ++ ("read2", intergenic_mates) :: []) () 0 =
        some (pre' ++ ("read2", intergenic_mates) :: post', increment r₀) :=
  ⟨rfl, by decide,
    C6_intergenic_candidate_remains [("read1", hairpin_mates)] [] "read2" intergenic_mates () 0
      rfl (Or.inl ⟨forward_mate1, other_contig_mate2, rfl, by decide, by decide⟩)
      (by simp [hairpin_mates]) (by simp)⟩

/-! ## The run as a whole -/

theorem entry_idempotent (e e' : String × mates_t) (h : filter_hairpin_entry e = some e') :
    filter_hairpin_entry e' = some e' := by
  unfold filter_hairpin_entry at h ⊢
  cases ho : filter_hairpin_outcome e.2 with
  | none => simp [ho] at h
  | some m' =>
    simp only [ho, Option.map_some', Option.some.injEq] at h
    subst h
    simp [outcome_idempotent e.2 m' ho]

theorem entry_frame (e e' : String × mates_t) (h : filter_hairpin_entry e = some e') :
    e'.1 = e.1 ∧ e'.2.alignments = e.2.alignments := by
  unfold filter_hairpin_entry at h
  cases ho : filter_hairpin_outcome e.2 with
  | none => simp [ho] at h
  | some m' =>
    simp only [ho, Option.map_some', Option.some.injEq] at h
    subst h
    exact ⟨rfl, outcome_alignments e.2 m' ho⟩

theorem entries_idempotent : ∀ (cs out : chimeric_alignments_t),
    cs.map filter_hairpin_entry = out.map some → out.map filter_hairpin_entry = out.map some
  | [], [], _ => rfl
  | [], _ :: _, h => by simp at h
  | _ :: _, [], h => by simp at h
  | e :: cs, e' :: out, h => by
    simp only [List.map_cons, List.cons.injEq] at h ⊢
    exact ⟨entry_idempotent e e' h.1, entries_idempotent cs out h.2⟩

theorem entries_frame : ∀ (cs out : chimeric_alignments_t),
    cs.map filter_hairpin_entry = out.map some →
      out.map Prod.fst = cs.map Prod.fst ∧
      out.map (fun e => e.2.alignments) = cs.map (fun e => e.2.alignments)
  | [], [], _ => ⟨rfl, rfl⟩
  | [], _ :: _, h => by simp at h
  | _ :: _, [], h => by simp at h
  | e :: cs, e' :: out, h => by
    simp only [List.map_cons, List.cons.injEq] at h ⊢
    have h1 := entry_frame e e' h.1
    have h2 := entries_frame cs out h.2
    exact ⟨⟨h1.1, h2.1⟩, ⟨h1.2, h2.2⟩⟩

theorem filterMap_id_map_some {α : Type} (l : List α) : (l.map some).filterMap id = l := by
  induction l with
  | nil => rfl
  | cons a l ih => simp [List.filterMap_cons, ih]

/-- C5: a second run of `filter_hairpin` on the result of a first run changes no
verdict: it returns the candidates of the first run unchanged (and the same
count). -/
theorem C5_second_run_changes_nothing {ι : Type} (chimeric_alignments : chimeric_alignments_t)
    (idx : ι) (gap : Int)
    (hsize : ∀ e ∈ chimeric_alignments,
      e.2.filter = filter_t.FILTER_none → 2 ≤ e.2.alignments.length) :
    ∃ out r, filter_hairpin chimeric_alignments idx gap = some (out, r) ∧
      filter_hairpin out idx gap = some (out, r) := by
  obtain ⟨out, r, h⟩ := filter_hairpin_returns chimeric_alignments idx gap hsize
  have h' := (filter_hairpin_some_iff _ _ idx gap r).1 h
  exact ⟨out, r, h, (filter_hairpin_some_iff _ _ idx gap r).2
    ⟨entries_idempotent _ _ h'.1, h'.2⟩⟩

/-- C5 at a set of three reads: the first run tags read1, the second run returns
the same candidates and the same count. -/
theorem C5_second_run_witness :
    (∀ e ∈ three_reads, e.2.filter = filter_t.FILTER_none → 2 ≤ e.2.alignments.length) ∧
    ∃ out r, filter_hairpin three_reads () 0 = some (out, r) ∧
      filter_hairpin out () 0 = some (out, r) :=
  ⟨by decide, C5_second_run_changes_nothing three_reads () 0 (by decide)⟩

/-- C7 (as the code has it): the number returned by `filter_hairpin` is the
number of candidates whose verdict is unfiltered after the run, reduced modulo
2^32 because the counter is an `unsigned int`; it is that number itself whenever
the number is at most `UINT_MAX`. -/
theorem C7_returned_count {ι : Type} (chimeric_alignments : chimeric_alignments_t)
    (idx : ι) (gap : Int)
    (hsize : ∀ e ∈ chimeric_alignments,
      e.2.filter = filter_t.FILTER_none → 2 ≤ e.2.alignments.length) :
    ∃ out r, filter_hairpin chimeric_alignments idx gap = some (out, r) ∧
      r = unfiltered_count out % (UINT_MAX + 1) ∧
      (unfiltered_count out ≤ UINT_MAX → r = unfiltered_count out) := by
  obtain ⟨out, r, h⟩ := filter_hairpin_returns chimeric_alignments idx gap hsize
  have h' := (filter_hairpin_some_iff _ _ idx gap r).1 h
  refine ⟨out, r, h, h'.2, fun hle => ?_⟩
  rw [h'.2]
  exact Nat.mod_eq_of_lt (Nat.lt_succ_of_le hle)

/-- C7 at a set of three reads. -/
theorem C7_returned_count_witness :
    (∀ e ∈ three_reads, e.2.filter = filter_t.FILTER_none → 2 ≤ e.2.alignments.length) ∧
    ∃ out r, filter_hairpin three_reads () 0 = some (out, r) ∧
      r = unfiltered_count out % (UINT_MAX + 1) ∧
      (unfiltered_count out ≤ UINT_MAX → r = unfiltered_count out) :=
  ⟨by decide, C7_returned_count three_reads () 0 (by decide)⟩

/-- C7 as the spec states it fails: on 2^32 intergenic candidates the run leaves
every candidate unfiltered, so 4294967296 candidates survive, and returns 0. -/
theorem C7_returned_count_counterexample :
    filter_hairpin many_candidates () 0 = some (many_candidates, 0) ∧
    unfiltered_count many_candidates = 4294967296 := by
  have ho : filter_hairpin_outcome intergenic_mates = some intergenic_mates := by decide
  have hc : unfiltered_count many_candidates = 4294967296 := by
    unfold unfiltered_count many_candidates
    rw [List.countP_eq_length.2]
    · rw [List.length_map, List.length_range]
      rfl
    · intro e he
      rw [List.mem_map] at he
      obtain ⟨i, _, rfl⟩ := he
      rfl
  refine ⟨(filter_hairpin_some_iff _ _ () 0 0).2 ⟨?_, ?_⟩, hc⟩
  · unfold many_candidates
    rw [List.map_map, List.map_map]
    apply List.map_congr_left
    intro i _
    simp [filter_hairpin_entry, ho]
  · rw [hc]
    rfl

/-- C8: for every permutation of the candidate list, `filter_hairpin` returns the
same count, and a candidate gets the same verdict wherever it stands: whenever
position i of the permuted list holds the entry of position j of the original
list, the results at i and j agree; the result of the permuted list is a
permutation of the result of the original one. -/
theorem C8_order_independent {ι : Type} (cs cs' : chimeric_alignments_t) (idx : ι) (gap : Int)
    (hperm : cs.Perm cs')
    (hsize : ∀ e ∈ cs, e.2.filter = filter_t.FILTER_none → 2 ≤ e.2.alignments.length) :
    ∃ out out' r, filter_hairpin cs idx gap = some (out, r) ∧
      filter_hairpin cs' idx gap = some (out', r) ∧
      out.Perm out' ∧
      ∀ i j : Nat, cs'[i]? = cs[j]? → out'[i]? = out[j]? := by
  have hsize' : ∀ e ∈ cs', e.2.filter = filter_t.FILTER_none → 2 ≤ e.2.alignments.length :=
    fun e he => hsize e (hperm.mem_iff.2 he)
  obtain ⟨out, hout⟩ := entries_exist cs hsize
  obtain ⟨out', hout'⟩ := entries_exist cs' hsize'
  have hp : out.Perm out' := by
    have := (hperm.map filter_hairpin_entry).filterMap id
    rwa [hout, hout', filterMap_id_map_some, filterMap_id_map_some] at this
  have hcount : unfiltered_count out = unfiltered_count out' := by
    unfold unfiltered_count
    exact hp.countP_eq _
  refine ⟨out, out', unfiltered_count out % (UINT_MAX + 1),
    (filter_hairpin_some_iff _ _ idx gap _).2 ⟨hout, rfl⟩,
    (filter_hairpin_some_iff _ _ idx gap _).2 ⟨hout', by rw [hcount]⟩, hp, fun i j hij => ?_⟩
  have h1 : (cs'.map filter_hairpin_entry)[i]? = (cs.map filter_hairpin_entry)[j]? := by
    rw [List.getElem?_map, List.getElem?_map, hij]
  rw [hout, hout', List.getElem?_map, List.getElem?_map] at h1
  exact Option.map_injective (Option.some_injective _) h1

/-- C8 at a set of three reads and its rotation. -/
theorem C8_order_independent_witness :
    three_reads.Perm
      [("read3", split_read_candidate), ("read1", hairpin_mates), ("read2", distant_mates)] ∧
    (∀ e ∈ three_reads, e.2.filter = filter_t.FILTER_none → 2 ≤ e.2.alignments.length) ∧
    ∃ out out' r, filter_hairpin three_reads () 0 = some (out, r) ∧
      filter_hairpin
        [("read3", split_read_candidate), ("read1", hairpin_mates), ("read2", distant_mates)]
        () 0 = some (out', r) ∧
      out.Perm out' ∧
      ∀ i j : Nat,
        [("read3", split_read_candidate), ("read1", hairpin_mates),
          ("read2", distant_mates)][i]? = three_reads[j]? → out'[i]? = out[j]? :=
  ⟨by decide, by decide,
    C8_order_independent three_reads
      [("read3", split_read_candidate), ("read1", hairpin_mates), ("read2", distant_mates)]
      () 0 (by decide) (by decide)⟩

/-- C9: `filter_hairpin` gives the same candidates and the same count for every
two values of `max_mate_gap`. -/
theorem C9_max_mate_gap_ignored {ι : Type} (chimeric_alignments : chimeric_alignments_t)
    (idx : ι) (gap1 gap2 : Int)
    (hsize : ∀ e ∈ chimeric_alignments,
      e.2.filter = filter_t.FILTER_none → 2 ≤ e.2.alignments.length) :
    ∃ out r, filter_hairpin chimeric_alignments idx gap1 = some (out, r) ∧
      filter_hairpin chimeric_alignments idx gap2 = some (out, r) := by
  obtain ⟨out, r, h⟩ := filter_hairpin_returns chimeric_alignments idx gap1 hsize
  exact ⟨out, r, h, h⟩

/-- C9 at a set of three reads with gaps 0 and 200000. -/
theorem C9_max_mate_gap_witness :
    (∀ e ∈ three_reads, e.2.filter = filter_t.FILTER_none → 2 ≤ e.2.alignments.length) ∧
    ∃ out r, filter_hairpin three_reads () 0 = some (out, r) ∧
      filter_hairpin three_reads () 200000 = some (out, r) :=
  ⟨by decide, C9_max_mate_gap_ignored three_reads () 0 200000 (by decide)⟩

/-- C10: `filter_hairpin` changes nothing but verdicts: the run returns as many
candidates as it was given, under the same names in the same order, and every
candidate holds the same records (contig, strand, start, end, CIGAR and gene
set of each) as before. -/
theorem C10_only_verdicts_change {ι : Type} (chimeric_alignments : chimeric_alignments_t)
    (idx : ι) (gap : Int)
    (hsize : ∀ e ∈ chimeric_alignments,
      e.2.filter = filter_t.FILTER_none → 2 ≤ e.2.alignments.length) :
    ∃ out r, filter_hairpin chimeric_alignments idx gap = some (out, r) ∧
      out.length = chimeric_alignments.length ∧
      out.map Prod.fst = chimeric_alignments.map Prod.fst ∧
      out.map (fun e => e.2.alignments) = chimeric_alignments.map (fun e => e.2.alignments) := by
  obtain ⟨out, r, h⟩ := filter_hairpin_returns chimeric_alignments idx gap hsize
  have h' := (filter_hairpin_some_iff _ _ idx gap r).1 h
  have hf := entries_frame _ _ h'.1
  refine ⟨out, r, h, ?_, hf.1, hf.2⟩
  have := congrArg List.length hf.1
  simpa using this

/-- C10 at a set of three reads. -/
theorem C10_only_verdicts_witness :
    (∀ e ∈ three_reads, e.2.filter = filter_t.FILTER_none → 2 ≤ e.2.alignments.length) ∧
    ∃ out r, filter_hairpin three_reads () 0 = some (out, r) ∧
      out.length = three_reads.length ∧
      out.map Prod.fst = three_reads.map Prod.fst ∧
      out.map (fun e => e.2.alignments) = three_reads.map (fun e => e.2.alignments) :=
  ⟨by decide, C10_only_verdicts_change three_reads () 0 (by decide)⟩

/-! ## The third check of a split read -/

/-- C13: for a three-record split-read candidate with verdict unfiltered whose
split read and supplementary share a gene or lie on the same contig, if the
breakpoint of the supplementary alignment (its end on the forward strand, its
start on the reverse strand) lies within the aligned segment of mate1, then
`filter_hairpin` tags the candidate hairpin and does not count it. -/
theorem C13_supplementary_within_mate1 {ι : Type} (pre post : chimeric_alignments_t)
    (name : String) (mate1 split_read supplementary : alignment_t) (idx : ι) (gap : Int)
    (hshare : (∃ g, g ∈ split_read.genes ∧ g ∈ supplementary.genes) ∨
      split_read.contig = supplementary.contig)
    (hwithin : is_breakpoint_within_aligned_segment (breakpoint_position supplementary)
      mate1 = true)
    (hpre : ∀ e ∈ pre, e.2.filter = filter_t.FILTER_none → 2 ≤ e.2.alignments.length)
    (hpost : ∀ e ∈ post, e.2.filter = filter_t.FILTER_none → 2 ≤ e.2.alignments.length) :
    (∀ remaining : Nat,
      filter_hairpin_iteration ⟨[mate1, split_read, supplementary], filter_t.FILTER_none⟩
          remaining =
        some (⟨[mate1, split_read, supplementary], filter_t.FILTER_hairpin⟩, remaining)) ∧
    ∃ pre' post' r₀, pre'.length = pre.length ∧
      filter_hairpin (pre ++ post) idx gap = some (pre' ++ post', r₀) ∧
      filter_hairpin
          (pre ++ (name, ⟨[mate1, split_read, supplementary], filter_t.FILTER_none⟩) :: post)
          idx gap =
        some (pre' ++
          (name, ⟨[mate1, split_read, supplementary], filter_t.FILTER_hairpin⟩) :: post',
          r₀) := by
  have hit : ∀ remaining : Nat,
      filter_hairpin_iteration ⟨[mate1, split_read, supplementary], filter_t.FILTER_none⟩
          remaining =
        some (⟨[mate1, split_read, supplementary], filter_t.FILTER_hairpin⟩, remaining) := by
    intro remaining
    rw [iteration_split_read mate1 split_read supplementary remaining hshare,
      if_pos (Or.inr (Or.inr hwithin))]
  refine ⟨hit, ?_⟩
  obtain ⟨pre', post', r₀, hl, h1, h2⟩ := filter_hairpin_insert pre post name _ _ idx gap
    hpre hpost (outcome_of_iteration _ _ _ _ (hit 0))
  refine ⟨pre', post', r₀, hl, h1, ?_⟩
  rw [h2]
  simp [count_remaining]

/-- C13 at a forward supplementary alignment ending at 170 and an unsplit mate
covering [160,200), where neither of the first two checks holds. -/
theorem C13_supplementary_within_mate1_witness :
    is_breakpoint_within_aligned_segment forward_split_read.start forward_supplementary
      = false ∧
    is_breakpoint_within_aligned_segment (breakpoint_position forward_supplementary)
      forward_split_read = false ∧
    is_breakpoint_within_aligned_segment (breakpoint_position forward_supplementary)
      covering_mate1 = true ∧
    (∀ remaining : Nat,
      filter_hairpin_iteration mate_hairpin_candidate remaining =
        some (⟨[covering_mate1, forward_split_read, forward_supplementary],
          filter_t.FILTER_hairpin⟩, remaining)) ∧
    ∃ pre' post' r₀, pre'.length = 1 ∧
      filter_hairpin ([("read1", distant_mates)] ++ []) () 0 = some (pre' ++ post', r₀) ∧
      filter_hairpin ([("read1", distant_mates)] ++ ("read2", mate_hairpin_candidate) :: [])
          () 0 =
        some (pre' ++ ("read2", ⟨[covering_mate1, forward_split_read, forward_supplementary],
          filter_t.FILTER_hairpin⟩) :: post', r₀) :=
  ⟨by decide, by decide, by decide,
    C13_supplementary_within_mate1 [("read1", distant_mates)] [] "read2" covering_mate1
      forward_split_read forward_supplementary () 0 (Or.inr rfl) (by decide)
      (by simp [distant_mates]) (by simp)⟩

/-! ## Reference positions along the CIGAR -/

theorem reference_length_append (a b : cigar_t) :
    reference_length (a ++ b) = reference_length a + reference_length b := by
  unfold reference_length
  simp [List.filter_append, List.map_append, List.sum_append]

theorem reference_length_nonneg : ∀ (cigar : cigar_t), 0 ≤ reference_length cigar
  | [] => by simp [reference_length_nil]
  | e :: rest => by
    have ih := reference_length_nonneg rest
    rw [reference_length_cons]
    split <;> omega

theorem reference_length_take_le (cigar : cigar_t) (i : Nat) :
    reference_length (cigar.take i) ≤ reference_length cigar := by
  have h := reference_length_append (cigar.take i) (cigar.drop i)
  rw [List.take_append_drop] at h
  have := reference_length_nonneg (cigar.drop i)
  omega

theorem reference_length_take_mono (cigar : cigar_t) (i j : Nat) (h : i ≤ j) :
    reference_length (cigar.take i) ≤ reference_length (cigar.take j) := by
  have := reference_length_take_le (cigar.take j) i
  rwa [List.take_take, Nat.min_eq_left h] at this

theorem reference_length_take_succ (cigar : cigar_t) (i : Nat) (e : cigar_element)
    (h : cigar[i]? = some e) :
    reference_length (cigar.take (i + 1)) =
      reference_length (cigar.take i) +
        (if consumes_reference e.operation then (e.op_length : Int) else 0) := by
  rw [List.take_succ, h, reference_length_append]
  simp [reference_length_cons, reference_length_nil]

theorem match_type_consumes (op : cigar_op) (h : is_match_type op = true) :
    consumes_reference op = true := by
  simp [consumes_reference, h]

/-- On integers: if the CIGAR holds a skip (N) or a deletion (D) with reference
start R and length L and R < p < R + L, then the walk returns false. -/
theorem inside_skip_not_covered (p : position_t) (alignment : alignment_t) (i : Nat)
    (e : cigar_element) (he : alignment.cigar[i]? = some e)
    (hop : e.operation = cigar_op.BAM_CREF_SKIP ∨ e.operation = cigar_op.BAM_CDEL)
    (hlo : reference_start alignment i < p)
    (hhi : p < reference_start alignment i + (e.op_length : Int)) :
    is_breakpoint_within_aligned_segment p alignment = false := by
  rw [Bool.eq_false_iff]
  intro ht
  obtain ⟨j, e', hj, hm, h1, h2⟩ :=
    (loop_true_iff p alignment.cigar alignment.start).1 ht
  unfold reference_start at hlo hhi
  have hlo' : @LT.lt Int _ (alignment.start + reference_length (alignment.cigar.take i)) p :=
    hlo
  have hhi' : @LT.lt Int _ p
      (alignment.start + reference_length (alignment.cigar.take i) + (e.op_length : Int)) := hhi
  have hsj := reference_length_take_succ alignment.cigar j e' hj
  rw [if_pos (match_type_consumes _ hm)] at hsj
  have hsi := reference_length_take_succ alignment.cigar i e he
  have hci : consumes_reference e.operation = true := by
    rcases hop with h | h <;> simp [consumes_reference, is_match_type, h]
  rw [if_pos hci] at hsi
  rcases Nat.lt_trichotomy j i with hlt | heq | hgt
  · have := reference_length_take_mono alignment.cigar (j + 1) i hlt
    omega
  · subst heq
    rw [he] at hj
    cases hj
    rcases hop with h | h <;> simp [is_match_type, h] at hm
  · have := reference_length_take_mono alignment.cigar (i + 1) j hgt
    omega

/-- On integers: if `is_breakpoint_within_aligned_segment p alignment` is true then
start <= p <= start + T, T being the sum of the lengths of the
reference-consuming CIGAR elements; it is false before the start, beyond
start + T, and everywhere when the CIGAR holds no match-type element. -/
theorem within_reference_span (p : position_t) (alignment : alignment_t) :
    (is_breakpoint_within_aligned_segment p alignment = true →
      alignment.start ≤ p ∧ p ≤ alignment.start + reference_length alignment.cigar) ∧
    (p < alignment.start → is_breakpoint_within_aligned_segment p alignment = false) ∧
    (alignment.start + reference_length alignment.cigar < p →
      is_breakpoint_within_aligned_segment p alignment = false) ∧
    ((∀ e ∈ alignment.cigar, is_match_type e.operation = false) →
      is_breakpoint_within_aligned_segment p alignment = false) := by
  have hspan : is_breakpoint_within_aligned_segment p alignment = true →
      alignment.start ≤ p ∧ p ≤ alignment.start + reference_length alignment.cigar := by
    intro ht
    obtain ⟨j, e, hj, hm, h1, h2⟩ :=
      (loop_true_iff p alignment.cigar alignment.start).1 ht
    have hs := reference_length_take_succ alignment.cigar j e hj
    rw [if_pos (match_type_consumes _ hm)] at hs
    have hle := reference_length_take_le alignment.cigar (j + 1)
    have h0 := reference_length_nonneg (alignment.cigar.take j)
    have hlow : @LE.le Int _ alignment.start p := by omega
    have hhigh : @LE.le Int _ p (alignment.start + reference_length alignment.cigar) := by omega
    exact ⟨hlow, hhigh⟩
  refine ⟨hspan, fun hlt => ?_, fun hgt => ?_, fun hno => ?_⟩
  · rw [Bool.eq_false_iff]
    intro ht
    exact absurd (hspan ht).1 (Int.not_le.2 hlt)
  · rw [Bool.eq_false_iff]
    intro ht
    exact absurd (hspan ht).2 (Int.not_le.2 hgt)
  · rw [Bool.eq_false_iff]
    intro ht
    obtain ⟨j, e, hj, hm, _, _⟩ :=
      (loop_true_iff p alignment.cigar alignment.start).1 ht
    have hmem : e ∈ alignment.cigar := List.getElem?_mem hj
    rw [hno e hmem] at hm
    cases hm

theorem splitOnP_replace_comma : ∀ (s : std_string),
    (replace s (Char.ofNat 44) (Char.ofNat 32)).splitOnP isspace = s.splitOnP is_separator
  | [] => rfl
  | x :: xs => by
    have ih := splitOnP_replace_comma xs
    unfold replace at ih ⊢
    rw [List.map_cons, List.splitOnP_cons, List.splitOnP_cons, ih]
    by_cases hx : x = Char.ofNat 44
    · subst hx
      have h1 : isspace (Char.ofNat 32) = true := by decide
      have h2 : is_separator (Char.ofNat 44) = true := by decide
      simp [h1, h2]
    · have h3 : is_separator x = isspace x := by simp [is_separator, hx]
      simp [hx, h3]

theorem extractions_replace (optarg : std_string) :
    extractions (replace optarg (Char.ofNat 44) (Char.ofNat 32)) =
      (tokens optarg).filter (fun word => !word.isEmpty) := by
  unfold extractions tokens
  rw [splitOnP_replace_comma]

theorem mem_extractions_replace (optarg t : std_string) :
    t ∈ extractions (replace optarg (Char.ofNat 44) (Char.ofNat 32)) ↔
      t ∈ tokens optarg ∧ t ≠ [] := by
  rw [extractions_replace, List.mem_filter]
  cases t <;> simp

theorem disabled_filters_loop_error : ∀ (words : List std_string) (filters : filters_map),
    (∃ name, disabled_filters_loop words filters = Except.error name) ↔
      ∃ t ∈ words, t ≠ [] ∧ filters t = none
  | [], filters => by simp [disabled_filters_loop]
  | w :: rest, filters => by
    unfold disabled_filters_loop
    by_cases hw : w ≠ [] ∧ filters w = none
    · rw [if_pos hw]
      constructor
      · intro _
        exact ⟨w, List.mem_cons_self _ _, hw⟩
      · intro _
        exact ⟨w, rfl⟩
    · rw [if_neg hw, disabled_filters_loop_error rest]
      constructor
      · rintro ⟨t, ht, hne, hnone⟩
        refine ⟨t, List.mem_cons_of_mem _ ht, hne, ?_⟩
        unfold filters_assign at hnone
        split at hnone
        · cases hnone
        · exact hnone
      · rintro ⟨t, ht, hne, hnone⟩
        rcases List.mem_cons.1 ht with rfl | ht'
        · exact absurd ⟨hne, hnone⟩ hw
        · refine ⟨t, ht', hne, ?_⟩
          unfold filters_assign
          split
          · rename_i heq
            subst heq
            exact absurd ⟨hne, hnone⟩ hw
          · exact hnone

theorem disabled_filters_loop_ok : ∀ (words : List std_string) (filters result : filters_map),
    disabled_filters_loop words filters = Except.ok result →
      ∀ name, result name = if name ∈ words ∨ name = [] then some false else filters name
  | [], filters, result, h => by
    intro name
    simp only [disabled_filters_loop, Except.ok.injEq] at h
    subst h
    simp [filters_assign]
  | w :: rest, filters, result, h => by
    intro name
    unfold disabled_filters_loop at h
    by_cases hw : w ≠ [] ∧ filters w = none
    · rw [if_pos hw] at h
      cases h
    · rw [if_neg hw] at h
      rw [disabled_filters_loop_ok rest _ result h name]
      unfold filters_assign
      by_cases h1 : name ∈ rest ∨ name = []
      · have h2 : name ∈ w :: rest ∨ name = [] := by
          rcases h1 with h1 | h1
          · exact Or.inl (List.mem_cons_of_mem _ h1)
          · exact Or.inr h1
        rw [if_pos h1, if_pos h2]
      · rw [if_neg h1]
        by_cases h3 : name = w
        · subst h3
          simp
        · have h2 : ¬ (name ∈ w :: rest ∨ name = []) := by
            rintro (h2 | h2)
            · rcases List.mem_cons.1 h2 with h2 | h2
              · exact h3 h2
              · exact h1 (Or.inl h2)
            · exact h1 (Or.inr h2)
          rw [if_neg h3, if_neg h2]

theorem get_default_options_loop_values (FILTER_none : Nat) :
    ∀ (names : List std_string) (i : Nat) (filters : filters_map),
      (∀ name, filters name = none ∨ filters name = some true) →
      ∀ name, get_default_options_loop FILTER_none names i filters name = none ∨
        get_default_options_loop FILTER_none names i filters name = some true
  | [], _, filters, h => by
    intro name
    exact h name
  | n :: rest, i, filters, h => by
    intro name
    unfold get_default_options_loop
    apply get_default_options_loop_values FILTER_none rest
    intro key
    split
    · unfold filters_assign
      split
      · exact Or.inr rfl
      · exact h key
    · exact h key

theorem get_default_options_values (FILTERS : List std_string) (FILTER_none : Nat)
    (name : std_string) :
    get_default_options FILTERS FILTER_none name = none ∨
      get_default_options FILTERS FILTER_none name = some true :=
  get_default_options_loop_values FILTER_none FILTERS 0 _ (fun _ => Or.inl rfl) name

/-- C11: parsing the argument of -f, started from the default filter map, fails
with an error if and only if some non-empty token of the list (tokens being
separated by commas or whitespace) is not a key of the default filter map; when
it succeeds, every filter named in the list is disabled and every known filter
that is not named in the list is still enabled.  The table of filter names is a
parameter; no filter is taken to have the empty name. -/
theorem C11_disabled_filters (FILTERS : List std_string) (FILTER_none : Nat)
    (optarg : std_string)
    (hempty : get_default_options FILTERS FILTER_none [] = none) :
    ((∃ name, parse_arguments_f optarg (get_default_options FILTERS FILTER_none) =
        Except.error name) ↔
      ∃ t ∈ tokens optarg, t ≠ [] ∧ get_default_options FILTERS FILTER_none t = none) ∧
    (∀ filters, parse_arguments_f optarg (get_default_options FILTERS FILTER_none) =
        Except.ok filters →
      (∀ t ∈ tokens optarg, t ≠ [] → filters t = some false) ∧
      (∀ name, get_default_options FILTERS FILTER_none name ≠ none → name ∉ tokens optarg →
        filters name = some true)) := by
  unfold parse_arguments_f
  constructor
  · rw [disabled_filters_loop_error]
    constructor
    · rintro ⟨t, ht, hne, hnone⟩
      exact ⟨t, ((mem_extractions_replace optarg t).1 ht).1, hne, hnone⟩
    · rintro ⟨t, ht, hne, hnone⟩
      exact ⟨t, (mem_extractions_replace optarg t).2 ⟨ht, hne⟩, hne, hnone⟩
  · intro filters hok
    have hres := disabled_filters_loop_ok _ _ filters hok
    constructor
    · intro t ht hne
      rw [hres t, if_pos (Or.inl ((mem_extractions_replace optarg t).2 ⟨ht, hne⟩))]
    · intro name hknown hnot
      have hne : name ≠ [] := by
        intro h
        rw [h] at hknown
        exact hknown hempty
      have hnin : ¬ (name ∈ extractions (replace optarg (Char.ofNat 44) (Char.ofNat 32)) ∨
          name = []) := by
        rintro (h | h)
        · exact hnot ((mem_extractions_replace optarg name).1 h).1
        · exact hne h
      rw [hres name, if_neg hnin]
      rcases get_default_options_values FILTERS FILTER_none name with h | h
      · exact absurd h hknown
      · exact h

/-! ## The extractions, one at a time -/

/-- The extraction skips leading whitespace. -/
theorem extractions_skip (c : Char) (s : std_string) (hc : isspace c = true) :
    extractions (c :: s) = extractions s := by
  unfold extractions
  rw [List.splitOnP_cons, if_pos hc]
  simp [List.filter_cons]

/-- From an empty stream nothing is extracted. -/
theorem extractions_nil : extractions [] = [] := by
  simp [extractions, List.splitOnP_nil, List.filter_cons]

/-- The extraction reads the characters up to the next whitespace; the stream
goes on behind them. -/
theorem extractions_word (c : Char) (s : std_string) (hc : isspace c = false) :
    extractions (c :: s) =
      (c :: s).takeWhile (fun x => !isspace x) ::
        extractions ((c :: s).dropWhile (fun x => !isspace x)) := by
  have hsplit := List.takeWhile_append_dropWhile (fun x => !isspace x) (c :: s)
  have hword : ∀ x ∈ (c :: s).takeWhile (fun x => !isspace x), ¬ isspace x = true := by
    intro x hx
    have := List.mem_takeWhile_imp hx
    simpa using this
  have hne : (c :: s).takeWhile (fun x => !isspace x) ≠ [] := by
    rw [List.takeWhile_cons]
    simp [hc]
  cases hrest : (c :: s).dropWhile (fun x => !isspace x) with
  | nil =>
    rw [hrest, List.append_nil] at hsplit
    rw [hsplit] at hword hne ⊢
    unfold extractions
    rw [List.splitOnP_eq_single isspace _ hword]
    cases hcs : c :: s with
    | nil => exact absurd hcs (by simp)
    | cons a l => simp [List.filter_cons, List.splitOnP_nil]
  | cons d r =>
    have hd : isspace d = true := by
      have := List.head?_dropWhile_not (fun x => !isspace x) (c :: s)
      rw [hrest] at this
      simpa using this
    rw [extractions_skip d r hd]
    rw [hrest] at hsplit
    generalize (c :: s).takeWhile (fun x => !isspace x) = word at hsplit hword hne
    rw [← hsplit]
    unfold extractions
    rw [List.splitOnP_first isspace _ hword d hd r]
    cases word with
    | nil => exact absurd rfl hne
    | cons a l => simp [List.filter_cons]

/-- C11 at a table of four names: the list "hairpin,foo" is rejected because of
foo; the list "hairpin, mismatches" is accepted, disables the two filters named
and leaves the filter duplicates enabled. -/
theorem C11_disabled_filters_witness :
    get_default_options example_FILTERS 0 [] = none ∧
    (∃ name, parse_arguments_f "hairpin,foo".toList (get_default_options example_FILTERS 0) =
      Except.error name) ∧
    ∃ filters, parse_arguments_f "hairpin, mismatches".toList
        (get_default_options example_FILTERS 0) = Except.ok filters ∧
      filters "hairpin".toList = some false ∧ filters "mismatches".toList = some false ∧
      filters "duplicates".toList = some true := by
  refine ⟨by decide, ?_, ?_⟩
  · exact (C11_disabled_filters example_FILTERS 0 "hairpin,foo".toList (by decide)).1.2
      ⟨"foo".toList, by decide, by decide, by decide⟩
  · have h := C11_disabled_filters example_FILTERS 0 "hairpin, mismatches".toList (by decide)
    cases hp : parse_arguments_f "hairpin, mismatches".toList
        (get_default_options example_FILTERS 0) with
    | error name =>
      exact absurd (h.1.1 ⟨name, hp⟩) (by decide)
    | ok filters =>
      exact ⟨filters, rfl, (h.2 filters hp).1 _ (by decide) (by decide),
        (h.2 filters hp).1 _ (by decide) (by decide),
        (h.2 filters hp).2 _ (by decide) (by decide)⟩

/-! ## validate_int -/

/-- C12 (what the code does): `validate_int` accepts the argument "12abc" with
the bounds of option -F and stores 12, in both overloads, and it accepts "1.5"
storing 1: a string with text behind its leading digits is not rejected. -/
theorem C12_validate_int_accepts_trailing_text :
    validate_int "12abc".toList 1 INT_MAX = some (true, 12) ∧
    validate_int_unsigned "12abc".toList 200 1 2147483647 = some (true, 12) ∧
    validate_int "1.5".toList 1 INT_MAX = some (true, 1) := by
  decide

/-! ## The walk over the CIGAR on 32-bit integers -/

theorem wrap_int_eq (x : Int) (h1 : INT_MIN ≤ x) (h2 : x ≤ INT_MAX) : wrap_int x = x := by
  unfold wrap_int
  unfold INT_MIN at h1
  unfold INT_MAX at h2
  omega

/-- Without integer overflow the machine arithmetic gives the result of the
arithmetic on integers. -/
theorem int32_loop_eq (p : Int) : ∀ (cigar : cigar_t) (r : Int),
    INT_MIN ≤ r → r + reference_length cigar ≤ INT_MAX →
    (∀ e ∈ cigar, (e.op_length : Int) ≤ INT_MAX) →
    is_breakpoint_within_aligned_segment_int32_loop p r cigar =
      some (is_breakpoint_within_aligned_segment_loop p r cigar)
  | [], _, _, _, _ => rfl
  | e :: rest, r, hr, hsum, hlen => by
    have h0 := reference_length_nonneg rest
    have hL : (e.op_length : Int) ≤ INT_MAX := hlen e (List.mem_cons_self _ _)
    have hL0 : (0 : Int) ≤ (e.op_length : Int) := Int.ofNat_nonneg _
    have hmin : INT_MIN ≤ 0 := by decide
    have hwL : wrap_int (e.op_length : Int) = (e.op_length : Int) :=
      wrap_int_eq _ (le_trans hmin hL0) hL
    have hrest : ∀ e' ∈ rest, (e'.op_length : Int) ≤ INT_MAX :=
      fun e' he' => hlen e' (List.mem_cons_of_mem _ he')
    rw [reference_length_cons] at hsum
    have ih := int32_loop_eq p rest
    by_cases hc : consumes_reference e.operation = true
    · rw [if_pos hc] at hsum
      have hr1 : INT_MIN ≤ r + (e.op_length : Int) := by omega
      have hr2 : r + (e.op_length : Int) ≤ INT_MAX := by omega
      have hw : wrap_int (r + (e.op_length : Int)) = r + (e.op_length : Int) :=
        wrap_int_eq _ hr1 hr2
      have ih' := ih (r + (e.op_length : Int)) hr1 (by omega) hrest
      have hnot : ¬ (r + (e.op_length : Int) < INT_MIN ∨ INT_MAX < r + (e.op_length : Int)) := by
        omega
      cases hop : e.operation <;>
        simp [consumes_reference, is_match_type, hop] at hc <;>
        simp only [is_breakpoint_within_aligned_segment_int32_loop,
          is_breakpoint_within_aligned_segment_loop, hop, hw, hwL, ih', if_neg hnot]
      all_goals
        by_cases h1 : p ≥ r
        · by_cases h2 : p ≤ r + (e.op_length : Int)
          · simp [h1, h2]
          · simp [h1, h2]
        · simp [h1]
    · rw [if_neg hc, zero_add] at hsum
      have ih' := ih r hr hsum hrest
      cases hop : e.operation <;>
        simp [consumes_reference, is_match_type, hop] at hc <;>
        simp only [is_breakpoint_within_aligned_segment_int32_loop,
          is_breakpoint_within_aligned_segment_loop, hop, ih']

theorem int32_eq_of_no_overflow (p : Int) (alignment : alignment_t)
    (hno : no_integer_overflow alignment = true) :
    is_breakpoint_within_aligned_segment_int32 p alignment =
      some (is_breakpoint_within_aligned_segment p alignment) := by
  unfold no_integer_overflow at hno
  simp only [Bool.and_eq_true, decide_eq_true_eq, List.all_eq_true] at hno
  exact int32_loop_eq p alignment.cigar alignment.start hno.1.1 hno.1.2 hno.2

/-- Without match-type element the loop returns false, whatever the positions. -/
theorem int32_loop_no_match (p : Int) : ∀ (cigar : cigar_t) (r : Int),
    (∀ e ∈ cigar, is_match_type e.operation = false) →
    is_breakpoint_within_aligned_segment_int32_loop p r cigar = some false
  | [], _, _ => rfl
  | e :: rest, r, h => by
    have he := h e (List.mem_cons_self _ _)
    have ih := int32_loop_no_match p rest
    have hrest : ∀ e' ∈ rest, is_match_type e'.operation = false :=
      fun e' he' => h e' (List.mem_cons_of_mem _ he')
    cases hop : e.operation <;>
      simp [is_match_type, hop] at he <;>
      simp only [is_breakpoint_within_aligned_segment_int32_loop, hop, ih _ hrest]

/-- C14 (as the code has it): without integer overflow, if the CIGAR holds a
skip (N) or a deletion (D) with reference start R and length L and
R < p < R + L, then `is_breakpoint_within_aligned_segment` returns false. -/
theorem C14_inside_skip_not_covered (p : position_t) (alignment : alignment_t) (i : Nat)
    (e : cigar_element) (hno : no_integer_overflow alignment = true)
    (he : alignment.cigar[i]? = some e)
    (hop : e.operation = cigar_op.BAM_CREF_SKIP ∨ e.operation = cigar_op.BAM_CDEL)
    (hlo : reference_start alignment i < p)
    (hhi : p < reference_start alignment i + (e.op_length : Int)) :
    is_breakpoint_within_aligned_segment_int32 p alignment = some false := by
  rw [int32_eq_of_no_overflow p alignment hno,
    inside_skip_not_covered p alignment i e he hop hlo hhi]

/-- C14 at the alignment 10M20N10M from 100: the point 120 lies strictly inside
the skipped stretch (110,130). -/
theorem C14_inside_skip_witness :
    no_integer_overflow spliced_alignment = true ∧
    spliced_alignment.cigar[2]? = some ⟨cigar_op.BAM_CREF_SKIP, 20⟩ ∧
    reference_start spliced_alignment 2 = 110 ∧
    is_breakpoint_within_aligned_segment_int32 120 spliced_alignment = some false :=
  ⟨by decide, rfl, by decide,
    C14_inside_skip_not_covered 120 spliced_alignment 2 ⟨cigar_op.BAM_CREF_SKIP, 20⟩
      (by decide) rfl (Or.inl rfl) (by decide) (by decide)⟩

/-- C14 as the spec states it fails: the first skip of the alignment from 100
with CIGAR 16 x 268435455N 100M starts at 100 and has length 268435455, the
point 150 lies strictly inside it, and the function returns true, because
`reference_position` has wrapped to 84 when the loop reaches the match run. -/
theorem C14_inside_skip_counterexample :
    wrapped_alignment.cigar[0]? = some ⟨cigar_op.BAM_CREF_SKIP, 268435455⟩ ∧
    reference_start wrapped_alignment 0 < 150 ∧
    (150 : Int) < reference_start wrapped_alignment 0 + 268435455 ∧
    is_breakpoint_within_aligned_segment_int32 150 wrapped_alignment = some true := by
  refine ⟨rfl, by decide, by decide, by decide⟩

/-- C15 (as the code has it): without integer overflow, if
`is_breakpoint_within_aligned_segment` returns true then
start <= p <= start + T, T being the sum of the lengths of the
reference-consuming CIGAR elements, and it returns false before the start and
beyond start + T; with or without overflow it returns false everywhere when the
CIGAR holds no match-type element. -/
theorem C15_within_reference_span (p : position_t) (alignment : alignment_t) :
    (no_integer_overflow alignment = true →
      (is_breakpoint_within_aligned_segment_int32 p alignment = some true →
        alignment.start ≤ p ∧ p ≤ alignment.start + reference_length alignment.cigar) ∧
      (p < alignment.start →
        is_breakpoint_within_aligned_segment_int32 p alignment = some false) ∧
      (alignment.start + reference_length alignment.cigar < p →
        is_breakpoint_within_aligned_segment_int32 p alignment = some false)) ∧
    ((∀ e ∈ alignment.cigar, is_match_type e.operation = false) →
      is_breakpoint_within_aligned_segment_int32 p alignment = some false) := by
  refine ⟨fun hno => ?_, fun hnone => int32_loop_no_match p alignment.cigar alignment.start hnone⟩
  have hspan := within_reference_span p alignment
  rw [int32_eq_of_no_overflow p alignment hno]
  refine ⟨fun ht => hspan.1 (Option.some.inj ht), fun hlt => ?_, fun hgt => ?_⟩
  · rw [hspan.2.1 hlt]
  · rw [hspan.2.2.1 hgt]

/-- C15 at the alignment 50M from 100 (true at 120, which lies in [100,150];
false at 99 and at 151) and at an alignment without match-type element. -/
theorem C15_within_reference_span_witness :
    no_integer_overflow forward_mate1 = true ∧
    (is_breakpoint_within_aligned_segment_int32 120 forward_mate1 = some true ∧
      forward_mate1.start ≤ 120 ∧
      120 ≤ forward_mate1.start + reference_length forward_mate1.cigar) ∧
    is_breakpoint_within_aligned_segment_int32 99 forward_mate1 = some false ∧
    is_breakpoint_within_aligned_segment_int32 151 forward_mate1 = some false ∧
    (∀ e ∈ unmatched_alignment.cigar, is_match_type e.operation = false) ∧
    is_breakpoint_within_aligned_segment_int32 110 unmatched_alignment = some false :=
  ⟨by decide,
    ⟨by decide, ((C15_within_reference_span 120 forward_mate1).1 (by decide)).1 (by decide)⟩,
    ((C15_within_reference_span 99 forward_mate1).1 (by decide)).2.1 (by decide),
    ((C15_within_reference_span 151 forward_mate1).1 (by decide)).2.2 (by decide),
    by decide,
    (C15_within_reference_span 110 unmatched_alignment).2 (by decide)⟩

/-- C15 as the spec states it fails: on the alignment from 100 with CIGAR
16 x 268435455N 100M the function returns true at the point 90, which lies
before the start of the alignment. -/
theorem C15_within_reference_span_counterexample :
    is_breakpoint_within_aligned_segment_int32 90 wrapped_alignment = some true ∧
    (90 : Int) < wrapped_alignment.start := by
  refine ⟨by decide, by decide⟩

end Arriba
